import Mathlib

/-!
# gozap: the game-state update functions of `main.go`

A shallow embedding of the state of the game (`Position`, `Enemy`, `Game`), of
the three functions that change it (`initLevel`, `movePlayer`, `moveEnemies`) and
of the loop of `main` that calls them on timer ticks and keystrokes.

Conventions of the embedding.

* Go's `int` is `Int`.  Every coordinate the program produces lies in
  `[0, Width) × [0, Height)` and levels and scores stay far from the limits of a
  machine word, so no arithmetic here wraps.  Go's `/` on `int` truncates towards
  zero and is `Int.tdiv`.
* Slices are lists.  `append(s[:i], s[i+1:]...)` is `s.take i ++ s.drop (i + 1)`.
* `math/rand` is an oracle `Rand`: the answer of the `k`-th call made to the
  generator, for each of the two entry points the program uses.  The functions
  that draw random numbers take the number of calls made so far and return the
  number of calls made afterwards, so draws are consumed in program order.
  `rand.Float32()` returns a `float32`; it is modelled by the rational number it
  denotes.  The test `rand.Float32() < 0.3` compares with the `float32` nearest
  to `0.3`, which lies above `0.3`; no `float32` lies between the two, so for
  every value the generator can return the test agrees with `q < 3/10`.
* The loop of `main` is a step function on the event its `select` receives; the
  keystroke producer and the timer only decide which events arrive, in which
  order.  Drawing the screen changes no state and is left out.
-/

namespace Gozap

/-! ## Data model (main.go, lines 12-36) -/

/-- Width of the grid, border included (`const Width = 40`). -/
def Width : Int := 40

/-- Height of the grid, border included (`const Height = 20`). -/
def Height : Int := 20

/-- A cell of the grid (`type Position struct { X, Y int }`). -/
@[ext] structure Position where
  X : Int
  Y : Int
deriving DecidableEq, Repr

/-- An alien: where it stands and where it is heading
(`Direction`: 0 = up, 1 = right, 2 = down, 3 = left). -/
@[ext] structure Enemy where
  Pos : Position
  Direction : Int
deriving DecidableEq, Repr

/-- The whole state of the game (`type Game struct`). -/
@[ext] structure Game where
  Player : Position
  Berries : List Position
  Enemies : List Enemy
  Walls : List Position
  Score : Int
  Level : Int
  BerriesNeeded : Int
  GameOver : Bool
  Won : Bool
deriving DecidableEq, Repr

/-- The random number generator as an oracle: `Intn k n` is what the `k`-th call
to the generator returns when that call is `rand.Intn(n)`, and `Float32 k` what
it returns when that call is `rand.Float32()`. -/
structure Rand where
  Intn : Nat → Int → Int
  Float32 : Nat → ℚ

/-- The contract of `rand.Intn`: the result lies in `[0, n)`. -/
def Rand.InRange (r : Rand) : Prop :=
  ∀ (k : Nat) (n : Int), 0 < n → 0 ≤ r.Intn k n ∧ r.Intn k n < n

/-! ## Shared tests -/

/-- The bounds test of `movePlayer` (line 166) and `moveEnemies` (line 230):
`newX <= 0 || newX >= Width-1 || newY <= 0 || newY >= Height-1`. -/
def outOfBounds (x y : Int) : Bool :=
  decide (x ≤ 0) || decide (x ≥ Width - 1) || decide (y ≤ 0) || decide (y ≥ Height - 1)

/-- The wall loop of `movePlayer` (lines 171-175) and `moveEnemies` (lines 235-240):
`true` as soon as some wall has `wall.X == x && wall.Y == y`. -/
def hitsWall : List Position → Int → Int → Bool
  | [], _, _ => false
  | wall :: rest, x, y =>
    if wall.X = x ∧ wall.Y = y then true else hitsWall rest x y

/-! ## movePlayer (main.go, lines 161-193) -/

/-- The berry loop of `movePlayer` (lines 181-187) up to its `break`: the index
of the first berry with `berry.X == x && berry.Y == y`, counting from `i`. -/
def berryIndex : List Position → Int → Int → Nat → Option Nat
  | [], _, _, _ => none
  | berry :: rest, x, y, i =>
    if berry.X = x ∧ berry.Y = y then some i else berryIndex rest x y (i + 1)

/-- The function `(g *Game) movePlayer(dx, dy int)`. -/
def movePlayer (g : Game) (dx dy : Int) : Game :=
  let newX := g.Player.X + dx
  let newY := g.Player.Y + dy
  if outOfBounds newX newY then g
  else if hitsWall g.Walls newX newY then g
  else
    let g1 : Game := { g with Player := { X := newX, Y := newY } }
    let g2 : Game :=
      match berryIndex g1.Berries g1.Player.X g1.Player.Y 0 with
      | some i =>
        { g1 with
          Berries := g1.Berries.take i ++ g1.Berries.drop (i + 1)
          Score := g1.Score + 10 }
      | none => g1
    if g2.Berries.length = 0 then { g2 with Won := true } else g2

/-! ## initLevel (main.go, lines 48-83) -/

/-- The berry loop of `initLevel` (lines 56-61), `n` iterations left; each
iteration draws `X` and then `Y` and appends the berry. -/
def genBerries (r : Rand) : Nat → Game × Nat → Game × Nat
  | 0, s => s
  | n + 1, (g, k) =>
    genBerries r n
      ({ g with
          Berries := g.Berries ++
            [{ X := r.Intn k (Width - 2) + 1, Y := r.Intn (k + 1) (Height - 2) + 1 }] },
        k + 2)

/-- The enemy loop of `initLevel` (lines 65-73), `n` iterations left; each
iteration draws `X`, `Y` and then the direction. -/
def genEnemies (r : Rand) : Nat → Game × Nat → Game × Nat
  | 0, s => s
  | n + 1, (g, k) =>
    genEnemies r n
      ({ g with
          Enemies := g.Enemies ++
            [{ Pos := { X := r.Intn k (Width - 2) + 1, Y := r.Intn (k + 1) (Height - 2) + 1 }
               Direction := r.Intn (k + 2) 4 }] },
        k + 3)

/-- The wall loop of `initLevel` (lines 77-82), `n` iterations left. -/
def genWalls (r : Rand) : Nat → Game × Nat → Game × Nat
  | 0, s => s
  | n + 1, (g, k) =>
    genWalls r n
      ({ g with
          Walls := g.Walls ++
            [{ X := r.Intn k (Width - 2) + 1, Y := r.Intn (k + 1) (Height - 2) + 1 }] },
        k + 2)

/-- The function `(g *Game) initLevel()`, started when `k` draws have been made;
returns the new state and the number of draws made.  A loop
`for i := 0; i < n; i++` runs `n.toNat` times. -/
def initLevel (r : Rand) (k : Nat) (g : Game) : Game × Nat :=
  let g0 : Game :=
    { g with
      Player := { X := Int.tdiv Width 2, Y := Int.tdiv Height 2 }
      Berries := []
      Enemies := []
      Walls := []
      BerriesNeeded := 5 + g.Level * 2 }
  let s1 := genBerries r g0.BerriesNeeded.toNat (g0, k)
  let numEnemies := 1 + Int.tdiv s1.1.Level 2
  let s2 := genEnemies r numEnemies.toNat s1
  let numWalls := 10 + s2.1.Level * 3
  genWalls r numWalls.toNat s2

/-- The positions appended by `n` iterations of the berry loop or of the wall
loop started when `k` draws have been made (used to describe their result). -/
def drawPositions (r : Rand) : Nat → Nat → List Position
  | 0, _ => []
  | n + 1, k =>
    { X := r.Intn k (Width - 2) + 1, Y := r.Intn (k + 1) (Height - 2) + 1 } ::
      drawPositions r n (k + 2)

/-- The enemies appended by `n` iterations of the enemy loop started when `k`
draws have been made (used to describe its result). -/
def drawEnemies (r : Rand) : Nat → Nat → List Enemy
  | 0, _ => []
  | n + 1, k =>
    { Pos := { X := r.Intn k (Width - 2) + 1, Y := r.Intn (k + 1) (Height - 2) + 1 }
      Direction := r.Intn (k + 2) 4 } ::
      drawEnemies r n (k + 3)

/-! ## moveEnemies (main.go, lines 195-255) -/

/-- The chase step (lines 200-210): the direction of the enemy after it, given
the value `q` returned by `rand.Float32()`. -/
def retarget (q : ℚ) (player : Position) (e : Enemy) : Int :=
  if q < 3 / 10 then
    if player.X > e.Pos.X then 1
    else if player.X < e.Pos.X then 3
    else if player.Y > e.Pos.Y then 2
    else if player.Y < e.Pos.Y then 0
    else e.Direction
  else e.Direction

/-- The `switch enemy.Direction` (lines 213-223): the step `(dx, dy)`; a
direction outside 0..3 matches no case and leaves `(0, 0)`. -/
def dirVec (d : Int) : Int × Int :=
  if d = 0 then (0, -1)
  else if d = 1 then (1, 0)
  else if d = 2 then (0, 1)
  else if d = 3 then (-1, 0)
  else (0, 0)

/-- The validity test (lines 229-240): `valid` starts `true` and is cleared by
the bounds test and by the wall loop. -/
def validMove (walls : List Position) (x y : Int) : Bool :=
  !(outOfBounds x y) && !(hitsWall walls x y)

/-- The body of the loop of `moveEnemies` for one enemy, up to the collision
test (lines 199-248), started when `k` draws have been made: the enemy
afterwards and the number of draws made.  `rand.Intn(4)` is called only when
the move is not valid. -/
def enemyTurn (r : Rand) (player : Position) (walls : List Position)
    (k : Nat) (e : Enemy) : Enemy × Nat :=
  let d := retarget (r.Float32 k) player e
  let newX := e.Pos.X + (dirVec d).1
  let newY := e.Pos.Y + (dirVec d).2
  if validMove walls newX newY then
    ({ Pos := { X := newX, Y := newY }, Direction := d }, k + 1)
  else
    ({ Pos := e.Pos, Direction := r.Intn (k + 1) 4 }, k + 2)

/-- One iteration of `for i := range g.Enemies` (lines 196-254): enemy `i` takes
its turn in place, then the collision test sets `GameOver`. -/
def moveEnemyAt (r : Rand) (s : Game × Nat) (i : Nat) : Game × Nat :=
  match s.1.Enemies[i]? with
  | none => s
  | some e =>
    let t := enemyTurn r s.1.Player s.1.Walls s.2 e
    let g1 : Game := { s.1 with Enemies := s.1.Enemies.set i t.1 }
    let g2 : Game :=
      if t.1.Pos.X = g1.Player.X ∧ t.1.Pos.Y = g1.Player.Y then
        { g1 with GameOver := true }
      else g1
    (g2, t.2)

/-- The function `(g *Game) moveEnemies()`, started when `k` draws have been
made: the indices `0 .. len(g.Enemies)-1` are visited in order. -/
def moveEnemies (r : Rand) (k : Nat) (g : Game) : Game × Nat :=
  (List.range g.Enemies.length).foldl (moveEnemyAt r) (g, k)

/-- The state and the number of draws made when enemy `i` is about to take its
turn in `moveEnemies`: the loop after its first `i` iterations. -/
def beforeEnemy (r : Rand) (k : Nat) (g : Game) (i : Nat) : Game × Nat :=
  (List.range i).foldl (moveEnemyAt r) (g, k)

/-- The collision test of `moveEnemies` (line 251) as a boolean. -/
def caught (player : Position) (e : Enemy) : Bool :=
  decide (e.Pos.X = player.X ∧ e.Pos.Y = player.Y)

/-- The enemies of a list taking their turns one after the other against a fixed
player and fixed walls, started when `k` draws have been made (used to describe
the result of `moveEnemies`). -/
def enemyTurns (r : Rand) (player : Position) (walls : List Position) :
    Nat → List Enemy → List Enemy × Nat
  | k, [] => ([], k)
  | k, e :: rest =>
    ((enemyTurn r player walls k e).1 ::
        (enemyTurns r player walls (enemyTurn r player walls k e).2 rest).1,
      (enemyTurns r player walls (enemyTurn r player walls k e).2 rest).2)

/-! ## main: the game loop (main.go, lines 274-327) -/

/-- What the `select` of the game loop receives: a tick of the timer
(`<-ticker.C`) or a keystroke (`<-inputChan`, one byte read as a rune). -/
inductive Event where
  | tick : Event
  | key (input : Char) : Event
deriving DecidableEq, Repr

/-- The state when `main` enters its loop (lines 274-277): `&Game{Level: 1}`
after `initLevel`, no draw made before; all fields but `Level` have the zero
value of their type. -/
def startGame (r : Rand) : Game × Nat :=
  initLevel r 0
    { Player := { X := 0, Y := 0 }
      Berries := [], Enemies := [], Walls := []
      Score := 0, Level := 1, BerriesNeeded := 0, GameOver := false, Won := false }

/-- The branch `case <-ticker.C:` (lines 297-301): the enemies move unless the
level is won. -/
def handleTick (r : Rand) (s : Game × Nat) : Game × Nat :=
  if !s.1.Won then moveEnemies r s.2 s.1 else s

/-- The branch `case input := <-inputChan:` (lines 303-325); `none` is the
`return` of the quit key. -/
def handleKey (r : Rand) (s : Game × Nat) (input : Char) : Option (Game × Nat) :=
  if s.1.Won then
    some (initLevel r s.2 { s.1 with Level := s.1.Level + 1, Won := false })
  else if input = 'w' ∨ input = 'W' then some (movePlayer s.1 0 (-1), s.2)
  else if input = 's' ∨ input = 'S' then some (movePlayer s.1 0 1, s.2)
  else if input = 'a' ∨ input = 'A' then some (movePlayer s.1 (-1) 0, s.2)
  else if input = 'd' ∨ input = 'D' then some (movePlayer s.1 1 0, s.2)
  else if input = 'q' ∨ input = 'Q' then none
  else some s

/-- One iteration of `for !game.GameOver { select { ... } }` (lines 295-327) on
the event received; `none` when the loop has been left (`GameOver`) or `main`
returns (quit key). -/
def loopStep (r : Rand) (s : Game × Nat) (ev : Event) : Option (Game × Nat) :=
  if s.1.GameOver then none
  else
    match ev with
    | Event.tick => some (handleTick r s)
    | Event.key input => handleKey r s input

/-- The loop fed the events of a list in order, from the state `s`; `none` when
the loop ends before the list does. -/
def runLoop (r : Rand) : List Event → Game × Nat → Option (Game × Nat)
  | [], s => some s
  | ev :: rest, s =>
    match loopStep r s ev with
    | none => none
    | some t => runLoop r rest t

/-! ## Vocabulary of the statements -/

/-- The interior of the grid: `1 <= X <= Width-2` and `1 <= Y <= Height-2`. -/
def Interior (p : Position) : Prop :=
  1 ≤ p.X ∧ p.X ≤ Width - 2 ∧ 1 ≤ p.Y ∧ p.Y ≤ Height - 2

instance (p : Position) : Decidable (Interior p) := by
  unfold Interior; infer_instance

/-- Two cells are adjacent when they differ by one step along one axis. -/
def Adjacent (p q : Position) : Prop :=
  |p.X - q.X| + |p.Y - q.Y| = 1

instance (p q : Position) : Decidable (Adjacent p q) := by
  unfold Adjacent; infer_instance

/-- Every position of the state lies in the interior. -/
def AllInside (g : Game) : Prop :=
  Interior g.Player ∧ (∀ e ∈ g.Enemies, Interior e.Pos) ∧
    (∀ w ∈ g.Walls, Interior w) ∧ (∀ b ∈ g.Berries, Interior b)

/-- Every enemy of the state has a direction among 0, 1, 2, 3. -/
def DirectionsOk (g : Game) : Prop :=
  ∀ e ∈ g.Enemies, 0 ≤ e.Direction ∧ e.Direction < 4

/-- A small oracle: every `rand.Intn` returns 0 and every `rand.Float32` returns 0. -/
def zeroRand : Rand := { Intn := fun _ _ => 0, Float32 := fun _ => 0 }

/-- An oracle that never chases: `rand.Float32` returns 1/2; `rand.Intn(n)`
returns the call number modulo `n`. -/
def walkRand : Rand := { Intn := fun k n => (k : Int) % n, Float32 := fun _ => 1 / 2 }

/-! ## Concrete states used to exercise the statements -/

/-- Level-1 start position with a single wall directly north of the player. -/
def wallNorth : Game :=
  { Player := { X := 20, Y := 10 }
    Berries := [{ X := 5, Y := 5 }]
    Enemies := []
    Walls := [{ X := 20, Y := 9 }]
    Score := 0, Level := 1, BerriesNeeded := 7, GameOver := false, Won := false }

/-- A level with exactly one berry, directly east of the player. -/
def berryEast : Game :=
  { Player := { X := 20, Y := 10 }
    Berries := [{ X := 21, Y := 10 }]
    Enemies := []
    Walls := [{ X := 20, Y := 9 }]
    Score := 0, Level := 1, BerriesNeeded := 1, GameOver := false, Won := false }

/-- Two berries on the cell east of the player and one elsewhere. -/
def berriesStacked : Game :=
  { Player := { X := 20, Y := 10 }
    Berries := [{ X := 5, Y := 5 }, { X := 21, Y := 10 }, { X := 7, Y := 7 }, { X := 21, Y := 10 }]
    Enemies := [{ Pos := { X := 21, Y := 10 }, Direction := 3 }]
    Walls := [{ X := 20, Y := 9 }]
    Score := 30, Level := 2, BerriesNeeded := 9, GameOver := false, Won := false }

/-- The state `main` builds before its first `initLevel`: `&Game{Level: 1}`. -/
def fresh : Game :=
  { Player := { X := 0, Y := 0 }
    Berries := [], Enemies := [], Walls := []
    Score := 0, Level := 1, BerriesNeeded := 0, GameOver := false, Won := false }

/-- An enemy directly west of the player and heading right, with a wall on the
player's own cell (the level generator may put a wall on the start cell). -/
def wallUnderPlayer : Game :=
  { Player := { X := 20, Y := 10 }
    Berries := [{ X := 5, Y := 5 }]
    Enemies := [{ Pos := { X := 19, Y := 10 }, Direction := 1 }]
    Walls := [{ X := 20, Y := 10 }]
    Score := 0, Level := 1, BerriesNeeded := 7, GameOver := false, Won := false }

/-- An oracle whose level 1 has its enemy at `(19, 10)` heading right and its
first wall at `(20, 10)`, the start cell of the player; every other draw is 0. -/
def trapRand : Rand :=
  { Intn := fun k _ =>
      if k = 14 then 18 else if k = 15 then 9 else if k = 16 then 1
      else if k = 17 then 19 else if k = 18 then 9 else 0
    Float32 := fun _ => 0 }

/-- Two enemies next to the player, both heading for it, and a third far away
facing the border; no wall on the player's cell. -/
def twoHunters : Game :=
  { Player := { X := 20, Y := 10 }
    Berries := [{ X := 5, Y := 5 }]
    Enemies := [{ Pos := { X := 19, Y := 10 }, Direction := 1 },
                { Pos := { X := 20, Y := 11 }, Direction := 0 },
                { Pos := { X := 1, Y := 1 }, Direction := 3 }]
    Walls := [{ X := 20, Y := 9 }]
    Score := 0, Level := 2, BerriesNeeded := 9, GameOver := false, Won := false }

/-- Enemies on every side of the player, and one on the player's own cell; none
of them heads for the player. -/
def chaseField : Game :=
  { Player := { X := 20, Y := 10 }
    Berries := [{ X := 5, Y := 5 }]
    Enemies := [{ Pos := { X := 5, Y := 5 }, Direction := 0 },
                { Pos := { X := 30, Y := 12 }, Direction := 0 },
                { Pos := { X := 20, Y := 3 }, Direction := 1 },
                { Pos := { X := 20, Y := 15 }, Direction := 1 },
                { Pos := { X := 20, Y := 10 }, Direction := 2 }]
    Walls := [{ X := 2, Y := 2 }]
    Score := 0, Level := 8, BerriesNeeded := 21, GameOver := false, Won := false }

/-- A level just completed: no berry left, `Won` set, an enemy next to the
player and heading for it. -/
def levelDone : Game :=
  { Player := { X := 21, Y := 10 }
    Berries := []
    Enemies := [{ Pos := { X := 20, Y := 10 }, Direction := 1 }]
    Walls := [{ X := 20, Y := 9 }]
    Score := 70, Level := 1, BerriesNeeded := 7, GameOver := false, Won := true }

/-- An oracle whose level 1 has all its seven berries on `(21, 10)`, the cell
east of the start cell, and everything else on `(1, 1)`; no enemy ever chases. -/
def berryRand : Rand :=
  { Intn := fun k _ => if k < 14 then (if k % 2 = 0 then 20 else 9) else 0
    Float32 := fun _ => 1 / 2 }

/-- An oracle whose level 1 has its enemy at `(19, 10)` heading right and
everything else on `(1, 1)`; every enemy chases. -/
def hunterRand : Rand :=
  { Intn := fun k _ => if k = 14 then 18 else if k = 15 then 9 else if k = 16 then 1 else 0
    Float32 := fun _ => 0 }

/-- Thirteen keystrokes, east and west in turn, with a tick in between: seven
visits of the cell east of the start cell. -/
def collectAll : List Event :=
  [Event.key 'd', Event.key 'a', Event.key 'd', Event.tick, Event.key 'A', Event.key 'D',
   Event.key 'a', Event.key 'd', Event.key 'a', Event.key 'd', Event.tick, Event.key 'a',
   Event.key 'd', Event.key 'a', Event.key 'd']

/-- A short walk: east, a tick, north, an ignored key, a tick. -/
def shortWalk : List Event :=
  [Event.key 'd', Event.tick, Event.key 'w', Event.key 'x', Event.tick]

/-- The third enemy of `twoHunters` alone, with the same player and walls and
different berries and score. -/
def loneEnemy : Game :=
  { Player := { X := 20, Y := 10 }
    Berries := []
    Enemies := [{ Pos := { X := 1, Y := 1 }, Direction := 3 }]
    Walls := [{ X := 20, Y := 9 }]
    Score := 50, Level := 3, BerriesNeeded := 11, GameOver := false, Won := false }

/-! ## Lemmas on the shared tests -/

theorem outOfBounds_eq_true_iff (x y : Int) :
    outOfBounds x y = true ↔ (x ≤ 0 ∨ x ≥ Width - 1 ∨ y ≤ 0 ∨ y ≥ Height - 1) := by
  simp [outOfBounds, or_assoc]

theorem outOfBounds_eq_false_iff (x y : Int) :
    outOfBounds x y = false ↔ Interior { X := x, Y := y } := by
  rw [← Bool.not_eq_true, outOfBounds_eq_true_iff]
  simp only [Interior, Width, Height]
  omega

theorem hitsWall_eq_true_iff (walls : List Position) (x y : Int) :
    hitsWall walls x y = true ↔ ({ X := x, Y := y } : Position) ∈ walls := by
  induction walls with
  | nil => simp [hitsWall]
  | cons w ws ih =>
    unfold hitsWall
    by_cases hw : w.X = x ∧ w.Y = y
    · have : w = { X := x, Y := y } := Position.ext hw.1 hw.2
      simp [hw, this]
    · have hne : ({ X := x, Y := y } : Position) ≠ w := by
        intro h
        apply hw
        rw [← h]
        exact ⟨rfl, rfl⟩
      simp [hw, ih, hne]

theorem hitsWall_eq_false_iff (walls : List Position) (x y : Int) :
    hitsWall walls x y = false ↔ ({ X := x, Y := y } : Position) ∉ walls := by
  rw [← Bool.not_eq_true, hitsWall_eq_true_iff]

theorem validMove_eq_true_iff (walls : List Position) (x y : Int) :
    validMove walls x y = true ↔
      Interior { X := x, Y := y } ∧ ({ X := x, Y := y } : Position) ∉ walls := by
  unfold validMove
  rw [Bool.and_eq_true, Bool.not_eq_true', Bool.not_eq_true', outOfBounds_eq_false_iff,
    hitsWall_eq_false_iff]

/-! ## Lemmas on the berry loop -/

theorem berryIndex_eq_none_iff (bs : List Position) (x y : Int) (i : Nat) :
    berryIndex bs x y i = none ↔ ({ X := x, Y := y } : Position) ∉ bs := by
  induction bs generalizing i with
  | nil => simp [berryIndex]
  | cons b rest ih =>
    unfold berryIndex
    by_cases hb : b.X = x ∧ b.Y = y
    · have : b = { X := x, Y := y } := Position.ext hb.1 hb.2
      simp [hb, this]
    · have hne : ({ X := x, Y := y } : Position) ≠ b := by
        intro h
        apply hb
        rw [← h]
        exact ⟨rfl, rfl⟩
      simp [hb, ih, hne]

theorem berryIndex_eq_some (bs : List Position) (x y : Int) (i j : Nat)
    (h : berryIndex bs x y i = some j) :
    ∃ front back : List Position,
      bs = front ++ { X := x, Y := y } :: back ∧
      ({ X := x, Y := y } : Position) ∉ front ∧ j = i + front.length := by
  induction bs generalizing i with
  | nil => simp [berryIndex] at h
  | cons b rest ih =>
    unfold berryIndex at h
    by_cases hb : b.X = x ∧ b.Y = y
    · have hbe : b = { X := x, Y := y } := Position.ext hb.1 hb.2
      rw [if_pos hb] at h
      refine ⟨[], rest, ?_, ?_, ?_⟩
      · simp [hbe]
      · simp
      · simpa using (Option.some.inj h).symm
    · rw [if_neg hb] at h
      obtain ⟨front, back, h1, h2, h3⟩ := ih (i + 1) h
      have hne : ({ X := x, Y := y } : Position) ≠ b := by
        intro h
        apply hb
        rw [← h]
        exact ⟨rfl, rfl⟩
      refine ⟨b :: front, back, ?_, ?_, ?_⟩
      · simp [h1]
      · simp [hne, h2]
      · simp only [List.length_cons]
        omega

theorem take_append_drop_succ (front back : List Position) (p : Position) :
    (front ++ p :: back).take front.length ++ (front ++ p :: back).drop (front.length + 1)
      = front ++ back := by
  simp

/-! ## Lemmas on movePlayer -/

theorem movePlayer_blocked (g : Game) (dx dy : Int)
    (h : outOfBounds (g.Player.X + dx) (g.Player.Y + dy) = true ∨
      hitsWall g.Walls (g.Player.X + dx) (g.Player.Y + dy) = true) :
    movePlayer g dx dy = g := by
  unfold movePlayer
  rcases h with h | h
  · simp [h]
  · by_cases hb : outOfBounds (g.Player.X + dx) (g.Player.Y + dy) = true
    · simp [hb]
    · simp [hb, h]

theorem movePlayer_committed (g : Game) (dx dy : Int)
    (hb : outOfBounds (g.Player.X + dx) (g.Player.Y + dy) = false)
    (hw : hitsWall g.Walls (g.Player.X + dx) (g.Player.Y + dy) = false) :
    movePlayer g dx dy =
      (let g1 : Game := { g with Player := { X := g.Player.X + dx, Y := g.Player.Y + dy } }
       let g2 : Game :=
        match berryIndex g.Berries (g.Player.X + dx) (g.Player.Y + dy) 0 with
        | some i =>
          { g1 with
            Berries := g.Berries.take i ++ g.Berries.drop (i + 1)
            Score := g.Score + 10 }
        | none => g1
       if g2.Berries.length = 0 then { g2 with Won := true } else g2) := by
  unfold movePlayer
  simp [hb, hw]

/-! ## movePlayer: rejected and committed moves -/

/-- C1: if the target cell `(Player.X+dx, Player.Y+dy)` is outside the interior
(`X <= 0`, `X >= Width-1`, `Y <= 0` or `Y >= Height-1`) or is the position of some
wall, `movePlayer dx dy` returns the state unchanged, every field included. -/
theorem movePlayer_rejected_unchanged (g : Game) (dx dy : Int)
    (h : (g.Player.X + dx ≤ 0 ∨ g.Player.X + dx ≥ Width - 1 ∨
            g.Player.Y + dy ≤ 0 ∨ g.Player.Y + dy ≥ Height - 1) ∨
          ∃ wall ∈ g.Walls, wall = { X := g.Player.X + dx, Y := g.Player.Y + dy }) :
    movePlayer g dx dy = g := by
  apply movePlayer_blocked
  rcases h with h | ⟨wall, hmem, heq⟩
  · exact Or.inl ((outOfBounds_eq_true_iff _ _).2 h)
  · exact Or.inr ((hitsWall_eq_true_iff _ _ _).2 (heq ▸ hmem))

/-- Witness for C1: a wall directly north of the start cell, move Up; and a move
towards the border from the cell next to it. -/
theorem movePlayer_rejected_unchanged_witness :
    ((wallNorth.Player.X + 0 ≤ 0 ∨ wallNorth.Player.X + 0 ≥ Width - 1 ∨
        wallNorth.Player.Y + (-1) ≤ 0 ∨ wallNorth.Player.Y + (-1) ≥ Height - 1) ∨
      ∃ wall ∈ wallNorth.Walls,
        wall = { X := wallNorth.Player.X + 0, Y := wallNorth.Player.Y + (-1) }) ∧
    movePlayer wallNorth 0 (-1) = wallNorth ∧
    (movePlayer wallNorth 0 (-1)).Player = { X := 20, Y := 10 } ∧
    (movePlayer wallNorth 0 (-1)).GameOver = false ∧
    (movePlayer wallNorth 0 (-1)).Won = false :=
  have hyp : (wallNorth.Player.X + 0 ≤ 0 ∨ wallNorth.Player.X + 0 ≥ Width - 1 ∨
        wallNorth.Player.Y + (-1) ≤ 0 ∨ wallNorth.Player.Y + (-1) ≥ Height - 1) ∨
      ∃ wall ∈ wallNorth.Walls,
        wall = { X := wallNorth.Player.X + 0, Y := wallNorth.Player.Y + (-1) } :=
    Or.inr ⟨{ X := 20, Y := 9 }, by decide, by decide⟩
  have key := movePlayer_rejected_unchanged wallNorth 0 (-1) hyp
  ⟨hyp, key, by rw [key]; rfl, by rw [key]; rfl, by rw [key]; rfl⟩

/-- C2: if the target cell `(Player.X+dx, Player.Y+dy)` is inside the interior and
is not the position of any wall, the player stands exactly on it after
`movePlayer dx dy`. -/
theorem movePlayer_committed_position (g : Game) (dx dy : Int)
    (hin : Interior { X := g.Player.X + dx, Y := g.Player.Y + dy })
    (hwall : ({ X := g.Player.X + dx, Y := g.Player.Y + dy } : Position) ∉ g.Walls) :
    (movePlayer g dx dy).Player = { X := g.Player.X + dx, Y := g.Player.Y + dy } := by
  rw [movePlayer_committed g dx dy ((outOfBounds_eq_false_iff _ _).2 hin)
    ((hitsWall_eq_false_iff _ _ _).2 hwall)]
  dsimp only
  split <;> split <;> rfl

/-- Witness for C2: from the start cell, one step to the right. -/
theorem movePlayer_committed_position_witness :
    Interior { X := wallNorth.Player.X + 1, Y := wallNorth.Player.Y + 0 } ∧
    ({ X := wallNorth.Player.X + 1, Y := wallNorth.Player.Y + 0 } : Position) ∉ wallNorth.Walls ∧
    (movePlayer wallNorth 1 0).Player = { X := 21, Y := 10 } :=
  ⟨by decide, by decide,
    movePlayer_committed_position wallNorth 1 0 (by decide) (by decide)⟩

/-- A committed move that finds a berry on the target cell. -/
theorem movePlayer_pickup_some (g : Game) (dx dy : Int)
    (hin : Interior { X := g.Player.X + dx, Y := g.Player.Y + dy })
    (hwall : ({ X := g.Player.X + dx, Y := g.Player.Y + dy } : Position) ∉ g.Walls)
    (hberry : ({ X := g.Player.X + dx, Y := g.Player.Y + dy } : Position) ∈ g.Berries) :
    ∃ front back : List Position,
      g.Berries = front ++ { X := g.Player.X + dx, Y := g.Player.Y + dy } :: back ∧
      ({ X := g.Player.X + dx, Y := g.Player.Y + dy } : Position) ∉ front ∧
      (movePlayer g dx dy).Berries = front ++ back ∧
      (movePlayer g dx dy).Score = g.Score + 10 ∧
      (movePlayer g dx dy).Won = (if front ++ back = [] then true else g.Won) := by
  rw [movePlayer_committed g dx dy ((outOfBounds_eq_false_iff _ _).2 hin)
    ((hitsWall_eq_false_iff _ _ _).2 hwall)]
  cases hidx : berryIndex g.Berries (g.Player.X + dx) (g.Player.Y + dy) 0 with
  | none => exact absurd hberry ((berryIndex_eq_none_iff _ _ _ _).1 hidx)
  | some i =>
    obtain ⟨front, back, h1, h2, h3⟩ := berryIndex_eq_some _ _ _ _ _ hidx
    have hi : i = front.length := by omega
    subst hi
    have hrem : g.Berries.take front.length ++ g.Berries.drop (front.length + 1)
        = front ++ back := by
      rw [h1]
      exact take_append_drop_succ front back _
    refine ⟨front, back, h1, h2, ?_⟩
    dsimp only
    rw [hrem]
    by_cases hnil : front ++ back = []
    · have hlen : (front ++ back).length = 0 := List.length_eq_zero.2 hnil
      rw [if_pos hlen, if_pos hnil]
      exact ⟨rfl, rfl, rfl⟩
    · have hlen : (front ++ back).length ≠ 0 := by
        intro h
        exact hnil (List.length_eq_zero.1 h)
      rw [if_neg hlen, if_neg hnil]
      exact ⟨rfl, rfl, rfl⟩

/-- A committed move that finds no berry on the target cell. -/
theorem movePlayer_pickup_none (g : Game) (dx dy : Int)
    (hin : Interior { X := g.Player.X + dx, Y := g.Player.Y + dy })
    (hwall : ({ X := g.Player.X + dx, Y := g.Player.Y + dy } : Position) ∉ g.Walls)
    (hberry : ({ X := g.Player.X + dx, Y := g.Player.Y + dy } : Position) ∉ g.Berries) :
    (movePlayer g dx dy).Berries = g.Berries ∧
    (movePlayer g dx dy).Score = g.Score ∧
    (movePlayer g dx dy).Won = (if g.Berries = [] then true else g.Won) := by
  rw [movePlayer_committed g dx dy ((outOfBounds_eq_false_iff _ _).2 hin)
    ((hitsWall_eq_false_iff _ _ _).2 hwall)]
  rw [(berryIndex_eq_none_iff _ _ _ _).2 hberry]
  dsimp only
  by_cases hnil : g.Berries = []
  · have hlen : g.Berries.length = 0 := List.length_eq_zero.2 hnil
    rw [if_pos hlen, if_pos hnil]
    exact ⟨rfl, rfl, rfl⟩
  · have hlen : g.Berries.length ≠ 0 := by
      intro h
      exact hnil (List.length_eq_zero.1 h)
    rw [if_neg hlen, if_neg hnil]
    exact ⟨rfl, rfl, rfl⟩

/-- Whatever the move, `Won` changes only when the berries end up empty. -/
theorem movePlayer_won_of_berries_ne_nil (g : Game) (dx dy : Int)
    (h : (movePlayer g dx dy).Berries ≠ []) :
    (movePlayer g dx dy).Won = g.Won := by
  by_cases hb : outOfBounds (g.Player.X + dx) (g.Player.Y + dy) = true
  · rw [movePlayer_blocked g dx dy (Or.inl hb)]
  · by_cases hw : hitsWall g.Walls (g.Player.X + dx) (g.Player.Y + dy) = true
    · rw [movePlayer_blocked g dx dy (Or.inr hw)]
    · have hin := (outOfBounds_eq_false_iff _ _).1 (Bool.not_eq_true _ ▸ hb)
      have hwall := (hitsWall_eq_false_iff _ _ _).1 (Bool.not_eq_true _ ▸ hw)
      by_cases hberry : ({ X := g.Player.X + dx, Y := g.Player.Y + dy } : Position) ∈ g.Berries
      · obtain ⟨front, back, -, -, h3, -, h5⟩ := movePlayer_pickup_some g dx dy hin hwall hberry
        rw [h5, if_neg (h3 ▸ h)]
      · obtain ⟨h1, -, h3⟩ := movePlayer_pickup_none g dx dy hin hwall hberry
        rw [h3, if_neg (h1 ▸ h)]

/-- C3: on a committed move (target inside the interior, not a wall): if some
berry lies on the target, `Score` grows by exactly 10 and `Berries` is the old
list without its first element equal to the target (the old list is
`front ++ target :: back` with no target in `front`, the new one `front ++ back`,
so one element fewer, later duplicates kept, order kept); if no berry lies on
the target, `Score` and `Berries` are unchanged. -/
theorem movePlayer_pickup (g : Game) (dx dy : Int)
    (hin : Interior { X := g.Player.X + dx, Y := g.Player.Y + dy })
    (hwall : ({ X := g.Player.X + dx, Y := g.Player.Y + dy } : Position) ∉ g.Walls) :
    (({ X := g.Player.X + dx, Y := g.Player.Y + dy } : Position) ∈ g.Berries →
      (movePlayer g dx dy).Score = g.Score + 10 ∧
      (movePlayer g dx dy).Berries.length + 1 = g.Berries.length ∧
      (movePlayer g dx dy).Berries =
        g.Berries.erase { X := g.Player.X + dx, Y := g.Player.Y + dy } ∧
      ∃ front back : List Position,
        g.Berries = front ++ { X := g.Player.X + dx, Y := g.Player.Y + dy } :: back ∧
        ({ X := g.Player.X + dx, Y := g.Player.Y + dy } : Position) ∉ front ∧
        (movePlayer g dx dy).Berries = front ++ back) ∧
    (({ X := g.Player.X + dx, Y := g.Player.Y + dy } : Position) ∉ g.Berries →
      (movePlayer g dx dy).Score = g.Score ∧
      (movePlayer g dx dy).Berries = g.Berries) := by
  constructor
  · intro hberry
    obtain ⟨front, back, h1, h2, h3, h4, -⟩ := movePlayer_pickup_some g dx dy hin hwall hberry
    refine ⟨h4, ?_, ?_, front, back, h1, h2, h3⟩
    · rw [h3, h1]
      simp only [List.length_append, List.length_cons]
      omega
    · rw [h3, h1, List.erase_append_right _ h2, List.erase_cons_head]
  · intro hberry
    obtain ⟨h1, h2, -⟩ := movePlayer_pickup_none g dx dy hin hwall hberry
    exact ⟨h2, h1⟩

/-- Witness for C3: two berries on the target cell; the first of them goes, the
second stays, and the berries around them keep their places. -/
theorem movePlayer_pickup_witness :
    Interior { X := berriesStacked.Player.X + 1, Y := berriesStacked.Player.Y + 0 } ∧
    ({ X := berriesStacked.Player.X + 1, Y := berriesStacked.Player.Y + 0 } : Position)
      ∉ berriesStacked.Walls ∧
    ({ X := berriesStacked.Player.X + 1, Y := berriesStacked.Player.Y + 0 } : Position)
      ∈ berriesStacked.Berries ∧
    (movePlayer berriesStacked 1 0).Score = 40 ∧
    (movePlayer berriesStacked 1 0).Berries =
      [{ X := 5, Y := 5 }, { X := 7, Y := 7 }, { X := 21, Y := 10 }] ∧
    ({ X := berriesStacked.Player.X + (-1), Y := berriesStacked.Player.Y + 0 } : Position)
      ∉ berriesStacked.Berries ∧
    (movePlayer berriesStacked (-1) 0).Score = 30 ∧
    (movePlayer berriesStacked (-1) 0).Berries = berriesStacked.Berries :=
  have hit := (movePlayer_pickup berriesStacked 1 0 (by decide) (by decide)).1 (by decide)
  have miss := (movePlayer_pickup berriesStacked (-1) 0 (by decide) (by decide)).2 (by decide)
  ⟨by decide, by decide, by decide, hit.1, hit.2.2.1.trans (by decide), by decide,
    miss.1, miss.2⟩

/-- C4: a committed move whose pickup removes the last remaining berry leaves
`Berries` empty and `Won` true (in particular, with one berry directly east of the
player and a free interior cell there, move Right gives `Score = old + 10`,
`Berries` empty, `Won` true); and after any `movePlayer` that leaves `Berries`
non-empty, `Won` has the value it had before. -/
theorem movePlayer_win (g : Game) (dx dy : Int) :
    (Interior { X := g.Player.X + dx, Y := g.Player.Y + dy } →
      ({ X := g.Player.X + dx, Y := g.Player.Y + dy } : Position) ∉ g.Walls →
      ({ X := g.Player.X + dx, Y := g.Player.Y + dy } : Position) ∈ g.Berries →
      g.Berries.length = 1 →
      (movePlayer g dx dy).Berries = [] ∧ (movePlayer g dx dy).Won = true) ∧
    (Interior { X := g.Player.X + 1, Y := g.Player.Y + 0 } →
      ({ X := g.Player.X + 1, Y := g.Player.Y + 0 } : Position) ∉ g.Walls →
      g.Berries = [{ X := g.Player.X + 1, Y := g.Player.Y + 0 }] →
      (movePlayer g 1 0).Score = g.Score + 10 ∧
      (movePlayer g 1 0).Berries = [] ∧ (movePlayer g 1 0).Won = true) ∧
    ((movePlayer g dx dy).Berries ≠ [] → (movePlayer g dx dy).Won = g.Won) := by
  have last : ∀ ex ey : Int,
      Interior { X := g.Player.X + ex, Y := g.Player.Y + ey } →
      ({ X := g.Player.X + ex, Y := g.Player.Y + ey } : Position) ∉ g.Walls →
      ({ X := g.Player.X + ex, Y := g.Player.Y + ey } : Position) ∈ g.Berries →
      g.Berries.length = 1 →
      (movePlayer g ex ey).Score = g.Score + 10 ∧
      (movePlayer g ex ey).Berries = [] ∧ (movePlayer g ex ey).Won = true := by
    intro ex ey hin hwall hberry hlen
    obtain ⟨front, back, h1, -, h3, h4, h5⟩ := movePlayer_pickup_some g ex ey hin hwall hberry
    have hnil : front ++ back = [] := by
      apply List.length_eq_zero.1
      rw [h1] at hlen
      simp only [List.length_append, List.length_cons] at hlen ⊢
      omega
    exact ⟨h4, h3.trans hnil, by rw [h5, if_pos hnil]⟩
  refine ⟨?_, ?_, movePlayer_won_of_berries_ne_nil g dx dy⟩
  · intro hin hwall hberry hlen
    exact (last dx dy hin hwall hberry hlen).2
  · intro hin hwall hb
    exact last 1 0 hin hwall (by rw [hb]; exact List.mem_singleton.2 rfl) (by rw [hb]; rfl)

/-- Witness for C4: the one-berry level, move Right: score 10, no berries, won;
and a move that leaves berries behind keeps `Won`. -/
theorem movePlayer_win_witness :
    (Interior { X := berryEast.Player.X + 1, Y := berryEast.Player.Y + 0 } ∧
      ({ X := berryEast.Player.X + 1, Y := berryEast.Player.Y + 0 } : Position)
        ∉ berryEast.Walls ∧
      berryEast.Berries = [{ X := berryEast.Player.X + 1, Y := berryEast.Player.Y + 0 }]) ∧
    ((movePlayer berryEast 1 0).Score = 10 ∧
      (movePlayer berryEast 1 0).Berries = [] ∧ (movePlayer berryEast 1 0).Won = true) ∧
    ((movePlayer berriesStacked 1 0).Berries ≠ [] ∧
      (movePlayer berriesStacked 1 0).Won = false) :=
  ⟨⟨by decide, by decide, by decide⟩,
    (movePlayer_win berryEast 1 0).2.1 (by decide) (by decide) (by decide),
    by decide, (movePlayer_win berriesStacked 1 0).2.2 (by decide)⟩

/-! ## initLevel: the three generation loops -/

theorem genBerries_eq (r : Rand) (n k : Nat) (g : Game) :
    genBerries r n (g, k) =
      ({ g with Berries := g.Berries ++ drawPositions r n k }, k + 2 * n) := by
  induction n generalizing g k with
  | zero => simp [genBerries, drawPositions]
  | succ n ih =>
    rw [genBerries, ih]
    simp only [drawPositions, List.append_assoc, List.singleton_append, Prod.mk.injEq, true_and]
    omega

theorem genWalls_eq (r : Rand) (n k : Nat) (g : Game) :
    genWalls r n (g, k) =
      ({ g with Walls := g.Walls ++ drawPositions r n k }, k + 2 * n) := by
  induction n generalizing g k with
  | zero => simp [genWalls, drawPositions]
  | succ n ih =>
    rw [genWalls, ih]
    simp only [drawPositions, List.append_assoc, List.singleton_append, Prod.mk.injEq, true_and]
    omega

theorem genEnemies_eq (r : Rand) (n k : Nat) (g : Game) :
    genEnemies r n (g, k) =
      ({ g with Enemies := g.Enemies ++ drawEnemies r n k }, k + 3 * n) := by
  induction n generalizing g k with
  | zero => simp [genEnemies, drawEnemies]
  | succ n ih =>
    rw [genEnemies, ih]
    simp only [drawEnemies, List.append_assoc, List.singleton_append, Prod.mk.injEq, true_and]
    omega

theorem length_drawPositions (r : Rand) (n k : Nat) : (drawPositions r n k).length = n := by
  induction n generalizing k with
  | zero => rfl
  | succ n ih => simp [drawPositions, ih]

theorem length_drawEnemies (r : Rand) (n k : Nat) : (drawEnemies r n k).length = n := by
  induction n generalizing k with
  | zero => rfl
  | succ n ih => simp [drawEnemies, ih]

theorem interior_of_draws (r : Rand) (hr : r.InRange) (i j : Nat) :
    Interior { X := r.Intn i (Width - 2) + 1, Y := r.Intn j (Height - 2) + 1 } := by
  have hx := hr i (Width - 2) (by decide)
  have hy := hr j (Height - 2) (by decide)
  simp only [Interior, Width, Height] at hx hy ⊢
  omega

theorem interior_drawPositions (r : Rand) (hr : r.InRange) (n k : Nat) :
    ∀ p ∈ drawPositions r n k, Interior p := by
  induction n generalizing k with
  | zero => simp [drawPositions]
  | succ n ih =>
    intro p hp
    rw [drawPositions, List.mem_cons] at hp
    rcases hp with rfl | hp
    · exact interior_of_draws r hr _ _
    · exact ih _ p hp

theorem interior_drawEnemies (r : Rand) (hr : r.InRange) (n k : Nat) :
    ∀ e ∈ drawEnemies r n k, Interior e.Pos ∧ 0 ≤ e.Direction ∧ e.Direction < 4 := by
  induction n generalizing k with
  | zero => simp [drawEnemies]
  | succ n ih =>
    intro e he
    rw [drawEnemies, List.mem_cons] at he
    rcases he with rfl | he
    · exact ⟨interior_of_draws r hr _ _, hr _ 4 (by decide)⟩
    · exact ih _ e he

/-- The result of `initLevel` in closed form: the player on the centre cell, the
three collections freshly drawn, everything else as before. -/
theorem initLevel_eq (r : Rand) (k : Nat) (g : Game) :
    initLevel r k g =
      ({ g with
          Player := { X := 20, Y := 10 }
          Berries := drawPositions r (5 + g.Level * 2).toNat k
          Enemies := drawEnemies r (1 + Int.tdiv g.Level 2).toNat
            (k + 2 * (5 + g.Level * 2).toNat)
          Walls := drawPositions r (10 + g.Level * 3).toNat
            (k + 2 * (5 + g.Level * 2).toNat + 3 * (1 + Int.tdiv g.Level 2).toNat)
          BerriesNeeded := 5 + g.Level * 2 },
        k + 2 * (5 + g.Level * 2).toNat + 3 * (1 + Int.tdiv g.Level 2).toNat
          + 2 * (10 + g.Level * 3).toNat) := by
  unfold initLevel
  simp only [genBerries_eq, genEnemies_eq, genWalls_eq, List.nil_append]
  rfl

/-- C5: for every level `L >= 1` and every sequence of draws, after `initLevel`
on a state with `Level = L`: `BerriesNeeded = 5 + 2L`, there are `5 + 2L` berries,
`1 + floor(L/2)` enemies and `10 + 3L` walls (`/` on `Int` is the floor division
for a positive divisor). -/
theorem initLevel_counts (r : Rand) (k : Nat) (g : Game) (hL : 1 ≤ g.Level) :
    (initLevel r k g).1.BerriesNeeded = 5 + 2 * g.Level ∧
    ((initLevel r k g).1.Berries.length : Int) = 5 + 2 * g.Level ∧
    ((initLevel r k g).1.Enemies.length : Int) = 1 + g.Level / 2 ∧
    ((initLevel r k g).1.Walls.length : Int) = 10 + 3 * g.Level := by
  have hdiv : Int.tdiv g.Level 2 = g.Level / 2 :=
    Int.tdiv_eq_ediv (by omega) (by decide)
  rw [initLevel_eq]
  simp only [length_drawPositions, length_drawEnemies]
  rw [hdiv, Int.toNat_of_nonneg (by omega), Int.toNat_of_nonneg (by omega),
    Int.toNat_of_nonneg (by omega)]
  refine ⟨?_, ?_, rfl, ?_⟩ <;> ring

/-- Witness for C5: level 1 gives 7, 7, 1 and 13; level 2 gives 9, 9, 2 and 16. -/
theorem initLevel_counts_witness :
    (1 ≤ wallNorth.Level ∧
      (initLevel walkRand 0 wallNorth).1.BerriesNeeded = 7 ∧
      ((initLevel walkRand 0 wallNorth).1.Berries.length : Int) = 7 ∧
      ((initLevel walkRand 0 wallNorth).1.Enemies.length : Int) = 1 ∧
      ((initLevel walkRand 0 wallNorth).1.Walls.length : Int) = 13) ∧
    (1 ≤ berriesStacked.Level ∧
      (initLevel zeroRand 5 berriesStacked).1.BerriesNeeded = 9 ∧
      ((initLevel zeroRand 5 berriesStacked).1.Berries.length : Int) = 9 ∧
      ((initLevel zeroRand 5 berriesStacked).1.Enemies.length : Int) = 2 ∧
      ((initLevel zeroRand 5 berriesStacked).1.Walls.length : Int) = 16) :=
  ⟨⟨by decide, initLevel_counts walkRand 0 wallNorth (by decide)⟩,
    ⟨by decide, initLevel_counts zeroRand 5 berriesStacked (by decide)⟩⟩

/-- C6: for every level and every sequence of draws in which each
`rand.Intn(n)` lies in `[0, n)`, after `initLevel` the player is on the centre
cell `(Width/2, Height/2) = (20, 10)`, and the player, every berry, every enemy
and every wall lie inside the interior. -/
theorem initLevel_positions (r : Rand) (k : Nat) (g : Game) (hr : r.InRange) :
    (initLevel r k g).1.Player = { X := Width / 2, Y := Height / 2 } ∧
    (initLevel r k g).1.Player = { X := 20, Y := 10 } ∧
    Interior (initLevel r k g).1.Player ∧
    (∀ b ∈ (initLevel r k g).1.Berries, Interior b) ∧
    (∀ e ∈ (initLevel r k g).1.Enemies, Interior e.Pos) ∧
    (∀ w ∈ (initLevel r k g).1.Walls, Interior w) := by
  have hcentre : ({ X := 20, Y := 10 } : Position) = { X := Width / 2, Y := Height / 2 } := by
    decide
  have hin : Interior { X := 20, Y := 10 } := by decide
  rw [initLevel_eq]
  refine ⟨hcentre, rfl, hin, ?_, ?_, ?_⟩
  · exact interior_drawPositions r hr _ _
  · intro e he
    exact (interior_drawEnemies r hr _ _ e he).1
  · exact interior_drawPositions r hr _ _

/-- The oracle `walkRand` honours the contract of `rand.Intn`. -/
theorem walkRand_inRange : walkRand.InRange := by
  intro k n hn
  exact ⟨Int.emod_nonneg _ (by omega), Int.emod_lt_of_pos _ hn⟩

/-- The oracle `zeroRand` honours the contract of `rand.Intn`. -/
theorem zeroRand_inRange : zeroRand.InRange := by
  intro k n hn
  exact ⟨le_refl 0, hn⟩

/-- Witness for C6: level 1 generated from the oracle `walkRand`. -/
theorem initLevel_positions_witness :
    walkRand.InRange ∧
    (initLevel walkRand 0 wallNorth).1.Player = { X := 20, Y := 10 } ∧
    Interior (initLevel walkRand 0 wallNorth).1.Player ∧
    (∀ b ∈ (initLevel walkRand 0 wallNorth).1.Berries, Interior b) ∧
    (∀ e ∈ (initLevel walkRand 0 wallNorth).1.Enemies, Interior e.Pos) ∧
    (∀ w ∈ (initLevel walkRand 0 wallNorth).1.Walls, Interior w) :=
  ⟨walkRand_inRange, (initLevel_positions walkRand 0 wallNorth walkRand_inRange).2⟩

/-! ## moveEnemies: the loop in closed form -/

theorem enemyTurns_append (r : Rand) (player : Position) (walls : List Position)
    (k : Nat) (a b : List Enemy) :
    enemyTurns r player walls k (a ++ b) =
      ((enemyTurns r player walls k a).1 ++
          (enemyTurns r player walls (enemyTurns r player walls k a).2 b).1,
        (enemyTurns r player walls (enemyTurns r player walls k a).2 b).2) := by
  induction a generalizing k with
  | nil => simp [enemyTurns]
  | cons e rest ih => simp [enemyTurns, ih]

theorem length_enemyTurns (r : Rand) (player : Position) (walls : List Position)
    (k : Nat) (l : List Enemy) :
    (enemyTurns r player walls k l).1.length = l.length := by
  induction l generalizing k with
  | nil => rfl
  | cons e rest ih => simp [enemyTurns, ih]

/-- One iteration of the loop on the enemy that follows the prefix `pre`. -/
theorem moveEnemyAt_eq (r : Rand) (g : Game) (k : Nat) (pre rest : List Enemy) (e : Enemy)
    (h : g.Enemies = pre ++ e :: rest) :
    moveEnemyAt r (g, k) pre.length =
      ({ g with
          Enemies := pre ++ (enemyTurn r g.Player g.Walls k e).1 :: rest
          GameOver := g.GameOver || caught g.Player (enemyTurn r g.Player g.Walls k e).1 },
        (enemyTurn r g.Player g.Walls k e).2) := by
  have hget : g.Enemies[pre.length]? = some e := by
    rw [h, List.getElem?_append_right (Nat.le_refl _), Nat.sub_self, List.getElem?_cons_zero]
  have hset : g.Enemies.set pre.length (enemyTurn r g.Player g.Walls k e).1
      = pre ++ (enemyTurn r g.Player g.Walls k e).1 :: rest := by
    rw [h]
    simp
  unfold moveEnemyAt
  simp only [hget, hset]
  by_cases hc : (enemyTurn r g.Player g.Walls k e).1.Pos.X = g.Player.X ∧
      (enemyTurn r g.Player g.Walls k e).1.Pos.Y = g.Player.Y
  · have hcb : caught g.Player (enemyTurn r g.Player g.Walls k e).1 = true := by
      simp [caught, hc]
    rw [if_pos hc, hcb, Bool.or_true]
  · have hcb : caught g.Player (enemyTurn r g.Player g.Walls k e).1 = false := by
      simp only [caught, decide_eq_false_iff_not]
      exact hc
    rw [if_neg hc, hcb, Bool.or_false]

/-- The loop over the indices of a segment `mid` of the enemies. -/
theorem foldl_moveEnemyAt (r : Rand) (mid : List Enemy) :
    ∀ (pre post : List Enemy) (g : Game) (k : Nat), g.Enemies = pre ++ mid ++ post →
      (List.range' pre.length mid.length).foldl (moveEnemyAt r) (g, k) =
        ({ g with
            Enemies := pre ++ (enemyTurns r g.Player g.Walls k mid).1 ++ post
            GameOver := g.GameOver ||
              (enemyTurns r g.Player g.Walls k mid).1.any (caught g.Player) },
          (enemyTurns r g.Player g.Walls k mid).2) := by
  induction mid with
  | nil =>
    intro pre post g k h
    simp only [List.length_nil, List.range'_zero, List.foldl_nil, enemyTurns, List.append_nil,
      List.any_nil, Bool.or_false]
    rw [List.append_nil] at h
    rw [← h]
  | cons e rest ih =>
    intro pre post g k h
    have h1 : g.Enemies = pre ++ e :: (rest ++ post) := by
      rw [h]
      simp
    rw [List.length_cons, List.range'_succ, List.foldl_cons, moveEnemyAt_eq r g k pre _ e h1]
    have hlen : pre.length + 1 = (pre ++ [(enemyTurn r g.Player g.Walls k e).1]).length := by
      simp
    rw [hlen, ih (pre ++ [(enemyTurn r g.Player g.Walls k e).1]) post _ _ (by simp)]
    simp [enemyTurns, Bool.or_assoc]

/-- The result of `moveEnemies` in closed form. -/
theorem moveEnemies_eq (r : Rand) (k : Nat) (g : Game) :
    moveEnemies r k g =
      ({ g with
          Enemies := (enemyTurns r g.Player g.Walls k g.Enemies).1
          GameOver := g.GameOver ||
            (enemyTurns r g.Player g.Walls k g.Enemies).1.any (caught g.Player) },
        (enemyTurns r g.Player g.Walls k g.Enemies).2) := by
  have h := foldl_moveEnemyAt r g.Enemies [] [] g k (by simp)
  simp only [List.length_nil, List.nil_append, List.append_nil] at h
  unfold moveEnemies
  rw [List.range_eq_range', h]

/-- The number of draws made when enemy `i` is about to take its turn. -/
theorem beforeEnemy_snd (r : Rand) (k : Nat) (g : Game) (i : Nat) (hi : i ≤ g.Enemies.length) :
    (beforeEnemy r k g i).2 = (enemyTurns r g.Player g.Walls k (g.Enemies.take i)).2 := by
  have h := foldl_moveEnemyAt r (g.Enemies.take i) [] (g.Enemies.drop i) g k (by simp)
  simp only [List.length_nil, List.length_take, Nat.min_eq_left hi] at h
  unfold beforeEnemy
  rw [List.range_eq_range', h]

/-- Enemy `i` after `moveEnemies` is enemy `i` after its own turn. -/
theorem moveEnemies_getElem (r : Rand) (k : Nat) (g : Game) (i : Nat) (e : Enemy)
    (h : g.Enemies[i]? = some e) :
    (moveEnemies r k g).1.Enemies[i]? =
      some (enemyTurn r g.Player g.Walls (beforeEnemy r k g i).2 e).1 := by
  obtain ⟨hi, he⟩ := List.getElem?_eq_some.1 h
  have hsplit : g.Enemies = g.Enemies.take i ++ e :: g.Enemies.drop (i + 1) := by
    rw [← he, ← List.drop_eq_getElem_cons hi, List.take_append_drop]
  have hlen : (g.Enemies.take i).length = i := by
    rw [List.length_take]
    omega
  rw [moveEnemies_eq, beforeEnemy_snd r k g i (by omega)]
  dsimp only
  conv_lhs => rw [hsplit, enemyTurns_append]
  dsimp only
  rw [List.getElem?_append_right (by rw [length_enemyTurns, hlen]), length_enemyTurns, hlen,
    Nat.sub_self]
  simp [enemyTurns]

/-! ## moveEnemies: one enemy's turn -/

theorem enemyTurn_of_valid (r : Rand) (player : Position) (walls : List Position)
    (k : Nat) (e : Enemy)
    (h : validMove walls
      (e.Pos.X + (dirVec (retarget (r.Float32 k) player e)).1)
      (e.Pos.Y + (dirVec (retarget (r.Float32 k) player e)).2) = true) :
    enemyTurn r player walls k e =
      ({ Pos := { X := e.Pos.X + (dirVec (retarget (r.Float32 k) player e)).1
                  Y := e.Pos.Y + (dirVec (retarget (r.Float32 k) player e)).2 }
         Direction := retarget (r.Float32 k) player e }, k + 1) := by
  unfold enemyTurn
  simp only [h, if_true]

theorem enemyTurn_of_not_valid (r : Rand) (player : Position) (walls : List Position)
    (k : Nat) (e : Enemy)
    (h : validMove walls
      (e.Pos.X + (dirVec (retarget (r.Float32 k) player e)).1)
      (e.Pos.Y + (dirVec (retarget (r.Float32 k) player e)).2) = false) :
    enemyTurn r player walls k e =
      ({ Pos := e.Pos, Direction := r.Intn (k + 1) 4 }, k + 2) := by
  unfold enemyTurn
  simp [h]

/-- An enemy whose direction points at the player keeps it through the chase step. -/
theorem retarget_of_pointing (q : ℚ) (player : Position) (e : Enemy)
    (hx : e.Pos.X + (dirVec e.Direction).1 = player.X)
    (hy : e.Pos.Y + (dirVec e.Direction).2 = player.Y) :
    retarget q player e = e.Direction := by
  unfold retarget
  unfold dirVec at hx hy
  by_cases hq : q < 3 / 10
  · rw [if_pos hq]
    by_cases h0 : e.Direction = 0
    · rw [if_pos h0] at hx hy
      simp only at hx hy
      rw [if_neg (by omega), if_neg (by omega), if_neg (by omega), if_pos (by omega), h0]
    · rw [if_neg h0] at hx hy
      by_cases h1 : e.Direction = 1
      · rw [if_pos h1] at hx hy
        simp only at hx hy
        rw [if_pos (by omega), h1]
      · rw [if_neg h1] at hx hy
        by_cases h2 : e.Direction = 2
        · rw [if_pos h2] at hx hy
          simp only at hx hy
          rw [if_neg (by omega), if_neg (by omega), if_pos (by omega), h2]
        · rw [if_neg h2] at hx hy
          by_cases h3 : e.Direction = 3
          · rw [if_pos h3] at hx hy
            simp only at hx hy
            rw [if_neg (by omega), if_pos (by omega), h3]
          · rw [if_neg h3] at hx hy
            simp only at hx hy
            rw [if_neg (by omega), if_neg (by omega), if_neg (by omega), if_neg (by omega)]
  · rw [if_neg hq]

/-- `GameOver` after `moveEnemies`: set before, or some enemy ends its turn on the
player's cell. -/
theorem moveEnemies_gameOver_iff (r : Rand) (k : Nat) (g : Game) :
    (moveEnemies r k g).1.GameOver = true ↔
      g.GameOver = true ∨
      ∃ (i : Nat) (e : Enemy), g.Enemies[i]? = some e ∧
        (enemyTurn r g.Player g.Walls (beforeEnemy r k g i).2 e).1.Pos = g.Player := by
  constructor
  · intro h
    rw [moveEnemies_eq] at h
    simp only [Bool.or_eq_true, List.any_eq_true] at h
    rcases h with h | ⟨e', hmem, hc⟩
    · exact Or.inl h
    · right
      obtain ⟨i, hi, he'⟩ := List.getElem_of_mem hmem
      rw [length_enemyTurns] at hi
      refine ⟨i, g.Enemies[i], List.getElem?_eq_getElem hi, ?_⟩
      have hres := moveEnemies_getElem r k g i g.Enemies[i] (List.getElem?_eq_getElem hi)
      rw [moveEnemies_eq] at hres
      dsimp only at hres
      rw [List.getElem?_eq_getElem (by rw [length_enemyTurns]; exact hi), he'] at hres
      rw [← Option.some.inj hres]
      simp only [caught, decide_eq_true_eq] at hc
      exact Position.ext hc.1 hc.2
  · intro h
    rcases h with h | ⟨i, e, hget, hpos⟩
    · rw [moveEnemies_eq]
      simp [h]
    · have hres := moveEnemies_getElem r k g i e hget
      rw [moveEnemies_eq] at hres ⊢
      dsimp only at hres ⊢
      rw [Bool.or_eq_true, List.any_eq_true]
      right
      refine ⟨_, List.getElem?_mem hres, ?_⟩
      simp [caught, hpos]

/-! ## moveEnemies: collisions -/

/-- C7 as stated fails: the player is inside the interior, an enemy stands on the
cell west of it heading right, yet a wall on the player's own cell makes the
enemy's move invalid, so it stays where it is and `GameOver` remains false,
whether the chase draw is below 0.3 (`zeroRand`, `trapRand`) or not (`walkRand`).
Such a state is what `initLevel` produces from the draws of `trapRand`. -/
theorem moveEnemies_wall_under_player :
    Interior wallUnderPlayer.Player ∧
    (∃ e ∈ wallUnderPlayer.Enemies,
      Adjacent e.Pos wallUnderPlayer.Player ∧
      e.Pos.X + (dirVec e.Direction).1 = wallUnderPlayer.Player.X ∧
      e.Pos.Y + (dirVec e.Direction).2 = wallUnderPlayer.Player.Y) ∧
    (moveEnemies zeroRand 0 wallUnderPlayer).1.GameOver = false ∧
    (moveEnemies walkRand 0 wallUnderPlayer).1.GameOver = false ∧
    (moveEnemies zeroRand 0 wallUnderPlayer).1.Enemies
      = [{ Pos := { X := 19, Y := 10 }, Direction := 0 }] ∧
    (initLevel trapRand 0 fresh).1.Player = wallUnderPlayer.Player ∧
    (initLevel trapRand 0 fresh).1.Enemies = wallUnderPlayer.Enemies ∧
    wallUnderPlayer.Player ∈ (initLevel trapRand 0 fresh).1.Walls ∧
    (moveEnemies trapRand 43 (initLevel trapRand 0 fresh).1).1.GameOver = false := by
  refine ⟨by decide, ⟨{ Pos := { X := 19, Y := 10 }, Direction := 1 }, by decide, by decide,
    by decide, by decide⟩, by decide!, by decide!, by decide!, by decide, by decide, by decide,
    by decide!⟩

/-- C7, amended: if the player is inside the interior, no wall is on the player's
cell, and some enemy stands on a cell adjacent to the player with its direction
pointing at the player, then one call of `moveEnemies` leaves `GameOver` true,
whatever the draws are. -/
theorem moveEnemies_catches_player (r : Rand) (k : Nat) (g : Game)
    (hin : Interior g.Player)
    (hfree : g.Player ∉ g.Walls)
    (h : ∃ e ∈ g.Enemies,
      Adjacent e.Pos g.Player ∧
      e.Pos.X + (dirVec e.Direction).1 = g.Player.X ∧
      e.Pos.Y + (dirVec e.Direction).2 = g.Player.Y) :
    (moveEnemies r k g).1.GameOver = true := by
  obtain ⟨e, hmem, -, hx, hy⟩ := h
  obtain ⟨i, hget⟩ := List.mem_iff_getElem?.1 hmem
  rw [moveEnemies_gameOver_iff]
  right
  refine ⟨i, e, hget, ?_⟩
  have hd := retarget_of_pointing (r.Float32 (beforeEnemy r k g i).2) g.Player e hx hy
  have hvalid : validMove g.Walls
      (e.Pos.X + (dirVec (retarget (r.Float32 (beforeEnemy r k g i).2) g.Player e)).1)
      (e.Pos.Y + (dirVec (retarget (r.Float32 (beforeEnemy r k g i).2) g.Player e)).2)
        = true := by
    rw [hd, hx, hy, validMove_eq_true_iff]
    exact ⟨hin, hfree⟩
  rw [enemyTurn_of_valid r g.Player g.Walls _ e hvalid, hd]
  exact Position.ext hx hy

/-- Witness for C7 amended: an enemy west of the player heading right, another south
of it heading up, no wall under the player. -/
theorem moveEnemies_catches_player_witness :
    Interior twoHunters.Player ∧
    twoHunters.Player ∉ twoHunters.Walls ∧
    (∃ e ∈ twoHunters.Enemies,
      Adjacent e.Pos twoHunters.Player ∧
      e.Pos.X + (dirVec e.Direction).1 = twoHunters.Player.X ∧
      e.Pos.Y + (dirVec e.Direction).2 = twoHunters.Player.Y) ∧
    (moveEnemies walkRand 0 twoHunters).1.GameOver = true :=
  have hyp : ∃ e ∈ twoHunters.Enemies,
      Adjacent e.Pos twoHunters.Player ∧
      e.Pos.X + (dirVec e.Direction).1 = twoHunters.Player.X ∧
      e.Pos.Y + (dirVec e.Direction).2 = twoHunters.Player.Y :=
    ⟨{ Pos := { X := 20, Y := 11 }, Direction := 0 }, by decide, by decide, by decide,
      by decide⟩
  ⟨by decide, by decide, hyp,
    moveEnemies_catches_player walkRand 0 twoHunters (by decide) (by decide) hyp⟩

/-- C8: after `moveEnemies`, `GameOver` is true if and only if it was true before
or some enemy's position after its own (attempted) move is the player's position;
so `GameOver` never goes from true to false; and every enemy takes its turn,
whether or not an earlier enemy collided: enemy `i` of the result is enemy `i`
of the input after its own turn. -/
theorem moveEnemies_gameOver (r : Rand) (k : Nat) (g : Game) :
    ((moveEnemies r k g).1.GameOver = true ↔
      g.GameOver = true ∨
      ∃ (i : Nat) (e : Enemy), g.Enemies[i]? = some e ∧
        (enemyTurn r g.Player g.Walls (beforeEnemy r k g i).2 e).1.Pos = g.Player) ∧
    (g.GameOver = true → (moveEnemies r k g).1.GameOver = true) ∧
    (∀ (i : Nat) (e : Enemy), g.Enemies[i]? = some e →
      (moveEnemies r k g).1.Enemies[i]? =
        some (enemyTurn r g.Player g.Walls (beforeEnemy r k g i).2 e).1) ∧
    (moveEnemies r k g).1.Enemies.length = g.Enemies.length := by
  refine ⟨moveEnemies_gameOver_iff r k g, ?_, moveEnemies_getElem r k g, ?_⟩
  · intro h
    exact (moveEnemies_gameOver_iff r k g).2 (Or.inl h)
  · rw [moveEnemies_eq]
    exact length_enemyTurns _ _ _ _ _

/-- Witness for C8: the first enemy collides, the two after it still take their
turns (one steps onto the player as well, one is blocked by the border and
redraws its direction); and a game that is over stays over with no enemy near. -/
theorem moveEnemies_gameOver_witness :
    (twoHunters.GameOver = false ∧
      twoHunters.Enemies[0]? = some { Pos := { X := 19, Y := 10 }, Direction := 1 } ∧
      (enemyTurn walkRand twoHunters.Player twoHunters.Walls
        (beforeEnemy walkRand 0 twoHunters 0).2
        { Pos := { X := 19, Y := 10 }, Direction := 1 }).1.Pos = twoHunters.Player ∧
      (moveEnemies walkRand 0 twoHunters).1.GameOver = true) ∧
    (twoHunters.Enemies[2]? = some { Pos := { X := 1, Y := 1 }, Direction := 3 } ∧
      (moveEnemies walkRand 0 twoHunters).1.Enemies[2]? =
        some { Pos := { X := 1, Y := 1 }, Direction := 3 }) ∧
    ({ wallNorth with GameOver := true }.GameOver = true ∧
      (moveEnemies walkRand 0 { wallNorth with GameOver := true }).1.GameOver = true) :=
  ⟨⟨by decide, by decide, by decide!,
      (moveEnemies_gameOver walkRand 0 twoHunters).1.2
        (Or.inr ⟨0, { Pos := { X := 19, Y := 10 }, Direction := 1 }, by decide, by decide!⟩)⟩,
    ⟨by decide,
      ((moveEnemies_gameOver walkRand 0 twoHunters).2.2.1 2
        { Pos := { X := 1, Y := 1 }, Direction := 3 } (by decide)).trans (by decide!)⟩,
    ⟨by decide,
      (moveEnemies_gameOver walkRand 0 { wallNorth with GameOver := true }).2.1 (by decide)⟩⟩

/-! ## moveEnemies: the move of each enemy -/

/-- C9: for every enemy processed by `moveEnemies`, with `d` its direction after
the re-target step and `c` its position plus the step of `d`: if `c` is inside
the interior and is no wall, the enemy ends on `c` with direction `d`; otherwise
it ends where it was, with the fresh draw `rand.Intn(4)` as direction, a value
in {0, 1, 2, 3}. -/
theorem moveEnemies_move_or_turn (r : Rand) (k : Nat) (g : Game) (hr : r.InRange)
    (i : Nat) (e : Enemy) (h : g.Enemies[i]? = some e) :
    ∃ e' : Enemy, (moveEnemies r k g).1.Enemies[i]? = some e' ∧
      ((Interior
            { X := e.Pos.X +
                (dirVec (retarget (r.Float32 (beforeEnemy r k g i).2) g.Player e)).1
              Y := e.Pos.Y +
                (dirVec (retarget (r.Float32 (beforeEnemy r k g i).2) g.Player e)).2 } ∧
          ({ X := e.Pos.X +
                (dirVec (retarget (r.Float32 (beforeEnemy r k g i).2) g.Player e)).1
             Y := e.Pos.Y +
                (dirVec (retarget (r.Float32 (beforeEnemy r k g i).2) g.Player e)).2 }
            : Position) ∉ g.Walls) →
        e'.Pos =
          { X := e.Pos.X +
              (dirVec (retarget (r.Float32 (beforeEnemy r k g i).2) g.Player e)).1
            Y := e.Pos.Y +
              (dirVec (retarget (r.Float32 (beforeEnemy r k g i).2) g.Player e)).2 } ∧
        e'.Direction = retarget (r.Float32 (beforeEnemy r k g i).2) g.Player e) ∧
      (¬ (Interior
            { X := e.Pos.X +
                (dirVec (retarget (r.Float32 (beforeEnemy r k g i).2) g.Player e)).1
              Y := e.Pos.Y +
                (dirVec (retarget (r.Float32 (beforeEnemy r k g i).2) g.Player e)).2 } ∧
          ({ X := e.Pos.X +
                (dirVec (retarget (r.Float32 (beforeEnemy r k g i).2) g.Player e)).1
             Y := e.Pos.Y +
                (dirVec (retarget (r.Float32 (beforeEnemy r k g i).2) g.Player e)).2 }
            : Position) ∉ g.Walls) →
        e'.Pos = e.Pos ∧
        e'.Direction = r.Intn ((beforeEnemy r k g i).2 + 1) 4 ∧
        (e'.Direction = 0 ∨ e'.Direction = 1 ∨ e'.Direction = 2 ∨ e'.Direction = 3)) := by
  refine ⟨_, moveEnemies_getElem r k g i e h, ?_, ?_⟩
  · intro hv
    rw [enemyTurn_of_valid r g.Player g.Walls _ e ((validMove_eq_true_iff _ _ _).2 hv)]
    exact ⟨rfl, rfl⟩
  · intro hv
    have hf : validMove g.Walls
        (e.Pos.X + (dirVec (retarget (r.Float32 (beforeEnemy r k g i).2) g.Player e)).1)
        (e.Pos.Y + (dirVec (retarget (r.Float32 (beforeEnemy r k g i).2) g.Player e)).2)
          = false := by
      rw [← Bool.not_eq_true, validMove_eq_true_iff]
      exact hv
    rw [enemyTurn_of_not_valid r g.Player g.Walls _ e hf]
    refine ⟨rfl, rfl, ?_⟩
    have hd := hr ((beforeEnemy r k g i).2 + 1) 4 (by decide)
    dsimp only
    omega

/-- Witness for C9: the enemy west of the player steps east onto a free interior
cell and keeps its direction; the enemy in the corner heading for the border
stays where it is and takes the fresh draw as direction. -/
theorem moveEnemies_move_or_turn_witness :
    walkRand.InRange ∧
    (twoHunters.Enemies[0]? = some { Pos := { X := 19, Y := 10 }, Direction := 1 } ∧
      (moveEnemies walkRand 0 twoHunters).1.Enemies[0]? =
        some { Pos := { X := 20, Y := 10 }, Direction := 1 }) ∧
    (twoHunters.Enemies[2]? = some { Pos := { X := 1, Y := 1 }, Direction := 3 } ∧
      (moveEnemies walkRand 0 twoHunters).1.Enemies[2]? =
        some { Pos := { X := 1, Y := 1 }, Direction := walkRand.Intn 3 4 }) := by
  obtain ⟨a, ha, hav, -⟩ := moveEnemies_move_or_turn walkRand 0 twoHunters walkRand_inRange 0
    { Pos := { X := 19, Y := 10 }, Direction := 1 } (by decide)
  obtain ⟨b, hb, -, hbn⟩ := moveEnemies_move_or_turn walkRand 0 twoHunters walkRand_inRange 2
    { Pos := { X := 1, Y := 1 }, Direction := 3 } (by decide)
  have hav2 := hav (by decide!)
  have hbn2 := hbn (by decide!)
  refine ⟨walkRand_inRange, ⟨by decide, ?_⟩, ⟨by decide, ?_⟩⟩
  · rw [ha]
    congr 1
    exact Enemy.ext (hav2.1.trans (by decide!)) (hav2.2.trans (by decide!))
  · rw [hb]
    congr 1
    exact Enemy.ext hbn2.1 (hbn2.2.1.trans (by decide!))

/-- C10: for every enemy processed by `moveEnemies`, the move of this tick is
made with the direction `d` that the chase step leaves (the enemy ends on its
position plus the step of `d` with direction `d` when that cell is valid, and
stays put otherwise), and `d` is: when the chase draw is below 0.3, Right (1) if
`Player.X > X`, else Left (3) if `Player.X < X`, else Down (2) if `Player.Y > Y`,
else Up (0) if `Player.Y < Y`, and the previous direction when the enemy is on
the player's cell; when the chase draw is 0.3 or more, the previous direction. -/
theorem moveEnemies_chase_direction (r : Rand) (k : Nat) (g : Game)
    (i : Nat) (e : Enemy) (h : g.Enemies[i]? = some e) :
    ∃ d : Int,
      (moveEnemies r k g).1.Enemies[i]? =
        some (if validMove g.Walls (e.Pos.X + (dirVec d).1) (e.Pos.Y + (dirVec d).2) then
            { Pos := { X := e.Pos.X + (dirVec d).1, Y := e.Pos.Y + (dirVec d).2 }
              Direction := d }
          else { Pos := e.Pos, Direction := r.Intn ((beforeEnemy r k g i).2 + 1) 4 }) ∧
      (r.Float32 (beforeEnemy r k g i).2 < 3 / 10 →
        (g.Player.X > e.Pos.X → d = 1) ∧
        (g.Player.X < e.Pos.X → d = 3) ∧
        (g.Player.X = e.Pos.X → g.Player.Y > e.Pos.Y → d = 2) ∧
        (g.Player.X = e.Pos.X → g.Player.Y < e.Pos.Y → d = 0) ∧
        (e.Pos = g.Player → d = e.Direction)) ∧
      (r.Float32 (beforeEnemy r k g i).2 ≥ 3 / 10 → d = e.Direction) := by
  refine ⟨retarget (r.Float32 (beforeEnemy r k g i).2) g.Player e, ?_, ?_, ?_⟩
  · rw [moveEnemies_getElem r k g i e h]
    congr 1
    by_cases hv : validMove g.Walls
        (e.Pos.X + (dirVec (retarget (r.Float32 (beforeEnemy r k g i).2) g.Player e)).1)
        (e.Pos.Y + (dirVec (retarget (r.Float32 (beforeEnemy r k g i).2) g.Player e)).2)
          = true
    · rw [enemyTurn_of_valid r g.Player g.Walls _ e hv, if_pos hv]
    · rw [enemyTurn_of_not_valid r g.Player g.Walls _ e (Bool.not_eq_true _ ▸ hv), if_neg hv]
  · intro hq
    unfold retarget
    rw [if_pos hq]
    refine ⟨?_, ?_, ?_, ?_, ?_⟩
    · intro h1
      rw [if_pos h1]
    · intro h1
      rw [if_neg (by omega), if_pos h1]
    · intro h1 h2
      rw [if_neg (by omega), if_neg (by omega), if_pos h2]
    · intro h1 h2
      rw [if_neg (by omega), if_neg (by omega), if_neg (by omega), if_pos h2]
    · intro h1
      have hx : e.Pos.X = g.Player.X := by rw [h1]
      have hy : e.Pos.Y = g.Player.Y := by rw [h1]
      rw [if_neg (by omega), if_neg (by omega), if_neg (by omega), if_neg (by omega)]
  · intro hq
    unfold retarget
    rw [if_neg (not_lt.2 hq)]

/-- Witness for C10: with every chase draw below 0.3 (`zeroRand`), the enemy west
and above goes Right, the one east and below goes Left, the one straight above
goes Down, the one straight below goes Up, the one on the player's cell keeps
heading Down; with every chase draw at 0.5 (`walkRand`) the first enemy keeps
heading Up. -/
theorem moveEnemies_chase_direction_witness :
    (moveEnemies zeroRand 0 chaseField).1.Enemies[0]? =
      some { Pos := { X := 6, Y := 5 }, Direction := 1 } ∧
    (moveEnemies zeroRand 0 chaseField).1.Enemies[1]? =
      some { Pos := { X := 29, Y := 12 }, Direction := 3 } ∧
    (moveEnemies zeroRand 0 chaseField).1.Enemies[2]? =
      some { Pos := { X := 20, Y := 4 }, Direction := 2 } ∧
    (moveEnemies zeroRand 0 chaseField).1.Enemies[3]? =
      some { Pos := { X := 20, Y := 14 }, Direction := 0 } ∧
    (moveEnemies zeroRand 0 chaseField).1.Enemies[4]? =
      some { Pos := { X := 20, Y := 11 }, Direction := 2 } ∧
    (moveEnemies walkRand 0 chaseField).1.Enemies[0]? =
      some { Pos := { X := 5, Y := 4 }, Direction := 0 } := by
  refine ⟨?_, ?_, ?_, ?_, ?_, ?_⟩
  · obtain ⟨d, hres, hchase, -⟩ := moveEnemies_chase_direction zeroRand 0 chaseField 0
      { Pos := { X := 5, Y := 5 }, Direction := 0 } (by decide)
    have hd : d = 1 := (hchase (by decide!)).1 (by decide)
    subst hd
    exact hres.trans (by decide)
  · obtain ⟨d, hres, hchase, -⟩ := moveEnemies_chase_direction zeroRand 0 chaseField 1
      { Pos := { X := 30, Y := 12 }, Direction := 0 } (by decide)
    have hd : d = 3 := (hchase (by decide!)).2.1 (by decide)
    subst hd
    exact hres.trans (by decide)
  · obtain ⟨d, hres, hchase, -⟩ := moveEnemies_chase_direction zeroRand 0 chaseField 2
      { Pos := { X := 20, Y := 3 }, Direction := 1 } (by decide)
    have hd : d = 2 := (hchase (by decide!)).2.2.1 (by decide) (by decide)
    subst hd
    exact hres.trans (by decide)
  · obtain ⟨d, hres, hchase, -⟩ := moveEnemies_chase_direction zeroRand 0 chaseField 3
      { Pos := { X := 20, Y := 15 }, Direction := 1 } (by decide)
    have hd : d = 0 := (hchase (by decide!)).2.2.2.1 (by decide) (by decide)
    subst hd
    exact hres.trans (by decide)
  · obtain ⟨d, hres, hchase, -⟩ := moveEnemies_chase_direction zeroRand 0 chaseField 4
      { Pos := { X := 20, Y := 10 }, Direction := 2 } (by decide)
    have hd : d = 2 := (hchase (by decide!)).2.2.2.2 (by decide)
    subst hd
    exact hres.trans (by decide)
  · obtain ⟨d, hres, -, hkeep⟩ := moveEnemies_chase_direction walkRand 0 chaseField 0
      { Pos := { X := 5, Y := 5 }, Direction := 0 } (by decide)
    have hd : d = 0 := hkeep (by decide!)
    subst hd
    exact hres.trans (by decide)

/-! ## Frames: what each function leaves alone -/

/-- What `movePlayer` never writes. -/
theorem movePlayer_frame (g : Game) (dx dy : Int) :
    (movePlayer g dx dy).GameOver = g.GameOver ∧
    (movePlayer g dx dy).Enemies = g.Enemies ∧
    (movePlayer g dx dy).Walls = g.Walls ∧
    (movePlayer g dx dy).Level = g.Level ∧
    (movePlayer g dx dy).BerriesNeeded = g.BerriesNeeded := by
  by_cases hb : outOfBounds (g.Player.X + dx) (g.Player.Y + dy) = true
  · rw [movePlayer_blocked g dx dy (Or.inl hb)]
    exact ⟨rfl, rfl, rfl, rfl, rfl⟩
  · by_cases hw : hitsWall g.Walls (g.Player.X + dx) (g.Player.Y + dy) = true
    · rw [movePlayer_blocked g dx dy (Or.inr hw)]
      exact ⟨rfl, rfl, rfl, rfl, rfl⟩
    · rw [movePlayer_committed g dx dy (Bool.not_eq_true _ ▸ hb) (Bool.not_eq_true _ ▸ hw)]
      dsimp only
      split <;> split <;> exact ⟨rfl, rfl, rfl, rfl, rfl⟩

/-- What `moveEnemies` never writes. -/
theorem moveEnemies_frame (r : Rand) (k : Nat) (g : Game) :
    (moveEnemies r k g).1.Player = g.Player ∧
    (moveEnemies r k g).1.Berries = g.Berries ∧
    (moveEnemies r k g).1.Walls = g.Walls ∧
    (moveEnemies r k g).1.Score = g.Score ∧
    (moveEnemies r k g).1.Level = g.Level ∧
    (moveEnemies r k g).1.BerriesNeeded = g.BerriesNeeded ∧
    (moveEnemies r k g).1.Won = g.Won ∧
    (moveEnemies r k g).1.Enemies.length = g.Enemies.length := by
  rw [moveEnemies_eq]
  exact ⟨rfl, rfl, rfl, rfl, rfl, rfl, rfl, length_enemyTurns _ _ _ _ _⟩

/-- What `initLevel` never writes. -/
theorem initLevel_frame (r : Rand) (k : Nat) (g : Game) :
    (initLevel r k g).1.Score = g.Score ∧
    (initLevel r k g).1.Level = g.Level ∧
    (initLevel r k g).1.GameOver = g.GameOver ∧
    (initLevel r k g).1.Won = g.Won := by
  rw [initLevel_eq]
  exact ⟨rfl, rfl, rfl, rfl⟩

/-- What `initLevel` writes is a function of the level and the draws alone. -/
theorem initLevel_congr (r : Rand) (k : Nat) (g h : Game) (hL : g.Level = h.Level) :
    (initLevel r k g).1.Player = (initLevel r k h).1.Player ∧
    (initLevel r k g).1.Berries = (initLevel r k h).1.Berries ∧
    (initLevel r k g).1.Enemies = (initLevel r k h).1.Enemies ∧
    (initLevel r k g).1.Walls = (initLevel r k h).1.Walls ∧
    (initLevel r k g).1.BerriesNeeded = (initLevel r k h).1.BerriesNeeded ∧
    (initLevel r k g).2 = (initLevel r k h).2 := by
  rw [initLevel_eq, initLevel_eq, hL]
  exact ⟨rfl, rfl, rfl, rfl, rfl, rfl⟩

/-- C15: `movePlayer` leaves `GameOver`, `Enemies`, `Walls`, `Level` and
`BerriesNeeded` unchanged; in particular a move onto a cell where an enemy stands
does not set `GameOver`. -/
theorem movePlayer_leaves_others (g : Game) (dx dy : Int) :
    ((movePlayer g dx dy).GameOver = g.GameOver ∧
      (movePlayer g dx dy).Enemies = g.Enemies ∧
      (movePlayer g dx dy).Walls = g.Walls ∧
      (movePlayer g dx dy).Level = g.Level ∧
      (movePlayer g dx dy).BerriesNeeded = g.BerriesNeeded) ∧
    (g.GameOver = false →
      (∃ e ∈ g.Enemies, e.Pos = (movePlayer g dx dy).Player) →
      (movePlayer g dx dy).GameOver = false) := by
  refine ⟨movePlayer_frame g dx dy, ?_⟩
  intro hg _
  rw [(movePlayer_frame g dx dy).1, hg]

/-- Witness for C15: the player steps east onto the cell of the enemy at `(21, 10)`;
the game is not over. -/
theorem movePlayer_leaves_others_witness :
    berriesStacked.GameOver = false ∧
    (movePlayer berriesStacked 1 0).Player = { X := 21, Y := 10 } ∧
    (∃ e ∈ berriesStacked.Enemies, e.Pos = (movePlayer berriesStacked 1 0).Player) ∧
    (movePlayer berriesStacked 1 0).GameOver = false :=
  have hyp : ∃ e ∈ berriesStacked.Enemies, e.Pos = (movePlayer berriesStacked 1 0).Player :=
    ⟨{ Pos := { X := 21, Y := 10 }, Direction := 3 }, by decide, by decide⟩
  ⟨by decide, by decide, hyp, (movePlayer_leaves_others berriesStacked 1 0).2 (by decide) hyp⟩

/-- C16: `initLevel` leaves `Score`, `Level`, `GameOver` and `Won` unchanged, and
the new `Player`, `Berries`, `Enemies`, `Walls` and `BerriesNeeded` are the same
from any two states with the same `Level` and the same draws: they do not depend
on the previous contents of those fields, which are discarded. -/
theorem initLevel_replaces (r : Rand) (k : Nat) (g : Game) :
    ((initLevel r k g).1.Score = g.Score ∧
      (initLevel r k g).1.Level = g.Level ∧
      (initLevel r k g).1.GameOver = g.GameOver ∧
      (initLevel r k g).1.Won = g.Won) ∧
    (∀ h : Game, h.Level = g.Level →
      (initLevel r k h).1.Player = (initLevel r k g).1.Player ∧
      (initLevel r k h).1.Berries = (initLevel r k g).1.Berries ∧
      (initLevel r k h).1.Enemies = (initLevel r k g).1.Enemies ∧
      (initLevel r k h).1.Walls = (initLevel r k g).1.Walls ∧
      (initLevel r k h).1.BerriesNeeded = (initLevel r k g).1.BerriesNeeded) := by
  refine ⟨initLevel_frame r k g, ?_⟩
  intro h hL
  obtain ⟨h1, h2, h3, h4, h5, -⟩ := initLevel_congr r k h g hL
  exact ⟨h1, h2, h3, h4, h5⟩

/-- Witness for C16: two level-1 states with different contents, one of them
empty, get the same level from the same draws; the score of each is kept. -/
theorem initLevel_replaces_witness :
    fresh.Level = wallUnderPlayer.Level ∧
    fresh.Berries ≠ wallUnderPlayer.Berries ∧
    (initLevel walkRand 0 fresh).1.Player = (initLevel walkRand 0 wallUnderPlayer).1.Player ∧
    (initLevel walkRand 0 fresh).1.Berries = (initLevel walkRand 0 wallUnderPlayer).1.Berries ∧
    (initLevel walkRand 0 fresh).1.Enemies = (initLevel walkRand 0 wallUnderPlayer).1.Enemies ∧
    (initLevel walkRand 0 fresh).1.Walls = (initLevel walkRand 0 wallUnderPlayer).1.Walls ∧
    (initLevel walkRand 0 fresh).1.BerriesNeeded
      = (initLevel walkRand 0 wallUnderPlayer).1.BerriesNeeded ∧
    (initLevel walkRand 0 wallUnderPlayer).1.Walls.length = 13 :=
  ⟨by decide, by decide,
    (initLevel_replaces walkRand 0 wallUnderPlayer).2 fresh (by decide) |>.1,
    (initLevel_replaces walkRand 0 wallUnderPlayer).2 fresh (by decide) |>.2.1,
    (initLevel_replaces walkRand 0 wallUnderPlayer).2 fresh (by decide) |>.2.2.1,
    (initLevel_replaces walkRand 0 wallUnderPlayer).2 fresh (by decide) |>.2.2.2.1,
    (initLevel_replaces walkRand 0 wallUnderPlayer).2 fresh (by decide) |>.2.2.2.2,
    by decide⟩

/-! ## The game loop: one event -/

theorem loopStep_tick (r : Rand) (s : Game × Nat) (hg : s.1.GameOver = false) :
    loopStep r s Event.tick = some (handleTick r s) := by
  simp [loopStep, hg]

theorem loopStep_key (r : Rand) (s : Game × Nat) (input : Char) (hg : s.1.GameOver = false) :
    loopStep r s (Event.key input) = handleKey r s input := by
  simp [loopStep, hg]

theorem handleTick_of_won (r : Rand) (s : Game × Nat) (hw : s.1.Won = true) :
    handleTick r s = s := by
  simp [handleTick, hw]

theorem handleTick_of_not_won (r : Rand) (s : Game × Nat) (hw : s.1.Won = false) :
    handleTick r s = moveEnemies r s.2 s.1 := by
  simp [handleTick, hw]

theorem handleKey_of_won (r : Rand) (s : Game × Nat) (input : Char) (hw : s.1.Won = true) :
    handleKey r s input =
      some (initLevel r s.2 { s.1 with Level := s.1.Level + 1, Won := false }) := by
  simp [handleKey, hw]

/-- C11: in a state with `Won = true` and `GameOver = false`, a keystroke, whatever
the key, yields a state with `Level = old + 1`, `Won = false`, `Score` and
`GameOver` unchanged, and `Player`, `Berries`, `Enemies`, `Walls`, `BerriesNeeded`
those `initLevel` produces for the new level (from any state with that level and
the same draws), so `BerriesNeeded = 5 + 2 * (old + 1)`; the loop goes on (no
quit) and the player is on the centre cell (no move). -/
theorem loopStep_key_of_won (r : Rand) (s : Game × Nat) (input : Char)
    (hw : s.1.Won = true) (hg : s.1.GameOver = false) :
    ∃ t : Game × Nat, loopStep r s (Event.key input) = some t ∧
      t = initLevel r s.2 { s.1 with Level := s.1.Level + 1, Won := false } ∧
      t.1.Level = s.1.Level + 1 ∧
      t.1.Won = false ∧
      t.1.Score = s.1.Score ∧
      t.1.GameOver = s.1.GameOver ∧
      t.1.BerriesNeeded = 5 + 2 * (s.1.Level + 1) ∧
      t.1.Player = { X := 20, Y := 10 } ∧
      (∀ h : Game, h.Level = s.1.Level + 1 →
        t.1.Player = (initLevel r s.2 h).1.Player ∧
        t.1.Berries = (initLevel r s.2 h).1.Berries ∧
        t.1.Enemies = (initLevel r s.2 h).1.Enemies ∧
        t.1.Walls = (initLevel r s.2 h).1.Walls ∧
        t.1.BerriesNeeded = (initLevel r s.2 h).1.BerriesNeeded) := by
  refine ⟨_, (loopStep_key r s input hg).trans (handleKey_of_won r s input hw), rfl, ?_⟩
  obtain ⟨f1, f2, f3, f4⟩ :=
    initLevel_frame r s.2 { s.1 with Level := s.1.Level + 1, Won := false }
  refine ⟨f2, f4, f1, f3, ?_, ?_, ?_⟩
  · rw [initLevel_eq]
    dsimp only
    ring
  · rw [initLevel_eq]
  · intro h hL
    obtain ⟨h1, h2, h3, h4, h5, -⟩ :=
      initLevel_congr r s.2 { s.1 with Level := s.1.Level + 1, Won := false } h hL.symm
    exact ⟨h1, h2, h3, h4, h5⟩

/-- Witness for C11: the completed level 1 with score 70; the keys `d` (a move
key), `q` (the quit key) and `x` all start level 2 with 9 berries to collect. -/
theorem loopStep_key_of_won_witness :
    levelDone.Won = true ∧ levelDone.GameOver = false ∧
    loopStep walkRand (levelDone, 5) (Event.key 'q')
      = some (initLevel walkRand 5 { levelDone with Level := 2, Won := false }) ∧
    loopStep walkRand (levelDone, 5) (Event.key 'd')
      = loopStep walkRand (levelDone, 5) (Event.key 'q') ∧
    loopStep walkRand (levelDone, 5) (Event.key 'x')
      = loopStep walkRand (levelDone, 5) (Event.key 'q') ∧
    (initLevel walkRand 5 { levelDone with Level := 2, Won := false }).1.Score = 70 ∧
    (initLevel walkRand 5 { levelDone with Level := 2, Won := false }).1.BerriesNeeded = 9 := by
  obtain ⟨tq, hq, hqe, -, -, hscore, -, hneeded, -⟩ :=
    loopStep_key_of_won walkRand (levelDone, 5) 'q' (by decide) (by decide)
  obtain ⟨td, hd, hde, -⟩ :=
    loopStep_key_of_won walkRand (levelDone, 5) 'd' (by decide) (by decide)
  obtain ⟨tx, hx, hxe, -⟩ :=
    loopStep_key_of_won walkRand (levelDone, 5) 'x' (by decide) (by decide)
  subst hqe hde hxe
  exact ⟨by decide, by decide, hq, hd.trans hq.symm, hx.trans hq.symm, hscore, hneeded⟩

/-- C17: in a state with `Won = true` a timer tick leaves the whole state
unchanged (`moveEnemies` is not run: enemies, `GameOver` and the number of draws
made are as before); hence any number of ticks in a row leaves it unchanged, and
`Won` stays true until a keystroke is handled. -/
theorem tick_of_won (r : Rand) (s : Game × Nat) (hw : s.1.Won = true) :
    handleTick r s = s ∧
    (s.1.GameOver = false → loopStep r s Event.tick = some s) ∧
    (s.1.GameOver = false →
      ∀ n : Nat, runLoop r (List.replicate n Event.tick) s = some s) := by
  refine ⟨handleTick_of_won r s hw, ?_, ?_⟩
  · intro hg
    rw [loopStep_tick r s hg, handleTick_of_won r s hw]
  · intro hg n
    induction n with
    | zero => rfl
    | succ n ih =>
      rw [List.replicate_succ, runLoop, loopStep_tick r s hg, handleTick_of_won r s hw]
      exact ih

/-- Witness for C17: the completed level with an enemy next to the player and
heading for it; three ticks later nothing has moved and the game is not over. -/
theorem tick_of_won_witness :
    levelDone.Won = true ∧ levelDone.GameOver = false ∧
    handleTick zeroRand (levelDone, 0) = (levelDone, 0) ∧
    runLoop zeroRand [Event.tick, Event.tick, Event.tick] (levelDone, 0)
      = some (levelDone, 0) :=
  ⟨by decide, by decide, (tick_of_won zeroRand (levelDone, 0) (by decide)).1,
    (tick_of_won zeroRand (levelDone, 0) (by decide)).2.2 (by decide) 3⟩

/-- C18: in a state with `Won = false` and `GameOver = false`, a keystroke gives:
for `w` or `W` the result of `movePlayer(0, -1)`, for `s` or `S` of
`movePlayer(0, 1)`, for `a` or `A` of `movePlayer(-1, 0)`, for `d` or `D` of
`movePlayer(1, 0)`; for every key other than these and `q`/`Q` the state is
unchanged. No draw is made in any of these cases. -/
theorem loopStep_key_of_playing (r : Rand) (s : Game × Nat) (input : Char)
    (hw : s.1.Won = false) (hg : s.1.GameOver = false) :
    (input = 'w' ∨ input = 'W' →
      loopStep r s (Event.key input) = some (movePlayer s.1 0 (-1), s.2)) ∧
    (input = 's' ∨ input = 'S' →
      loopStep r s (Event.key input) = some (movePlayer s.1 0 1, s.2)) ∧
    (input = 'a' ∨ input = 'A' →
      loopStep r s (Event.key input) = some (movePlayer s.1 (-1) 0, s.2)) ∧
    (input = 'd' ∨ input = 'D' →
      loopStep r s (Event.key input) = some (movePlayer s.1 1 0, s.2)) ∧
    (input ≠ 'w' → input ≠ 'W' → input ≠ 's' → input ≠ 'S' →
      input ≠ 'a' → input ≠ 'A' → input ≠ 'd' → input ≠ 'D' →
      input ≠ 'q' → input ≠ 'Q' →
      loopStep r s (Event.key input) = some s) := by
  rw [loopStep_key r s input hg]
  unfold handleKey
  rw [if_neg (by rw [hw]; decide)]
  refine ⟨?_, ?_, ?_, ?_, ?_⟩
  · intro h
    rw [if_pos h]
  · intro h
    have n1 : ¬ (input = 'w' ∨ input = 'W') := by
      rcases h with h | h <;> rw [h] <;> decide
    rw [if_neg n1, if_pos h]
  · intro h
    have n1 : ¬ (input = 'w' ∨ input = 'W') := by
      rcases h with h | h <;> rw [h] <;> decide
    have n2 : ¬ (input = 's' ∨ input = 'S') := by
      rcases h with h | h <;> rw [h] <;> decide
    rw [if_neg n1, if_neg n2, if_pos h]
  · intro h
    have n1 : ¬ (input = 'w' ∨ input = 'W') := by
      rcases h with h | h <;> rw [h] <;> decide
    have n2 : ¬ (input = 's' ∨ input = 'S') := by
      rcases h with h | h <;> rw [h] <;> decide
    have n3 : ¬ (input = 'a' ∨ input = 'A') := by
      rcases h with h | h <;> rw [h] <;> decide
    rw [if_neg n1, if_neg n2, if_neg n3, if_pos h]
  · intro h1 h2 h3 h4 h5 h6 h7 h8 h9 h10
    rw [if_neg (not_or.2 ⟨h1, h2⟩), if_neg (not_or.2 ⟨h3, h4⟩), if_neg (not_or.2 ⟨h5, h6⟩),
      if_neg (not_or.2 ⟨h7, h8⟩), if_neg (not_or.2 ⟨h9, h10⟩)]

/-- Witness for C18: from the start cell with a wall to the north: `W` is
rejected by the wall, `d` steps east, `x` changes nothing. -/
theorem loopStep_key_of_playing_witness :
    wallNorth.Won = false ∧ wallNorth.GameOver = false ∧
    loopStep zeroRand (wallNorth, 4) (Event.key 'W') = some (wallNorth, 4) ∧
    loopStep zeroRand (wallNorth, 4) (Event.key 'd')
      = some ({ wallNorth with Player := { X := 21, Y := 10 } }, 4) ∧
    loopStep zeroRand (wallNorth, 4) (Event.key 'x') = some (wallNorth, 4) :=
  ⟨by decide, by decide,
    ((loopStep_key_of_playing zeroRand (wallNorth, 4) 'W' (by decide) (by decide)).1
      (Or.inr rfl)).trans (by decide),
    ((loopStep_key_of_playing zeroRand (wallNorth, 4) 'd' (by decide) (by decide)).2.2.2.1
      (Or.inl rfl)).trans (by decide),
    (loopStep_key_of_playing zeroRand (wallNorth, 4) 'x' (by decide) (by decide)).2.2.2.2
      (by decide) (by decide) (by decide) (by decide) (by decide) (by decide) (by decide)
      (by decide) (by decide) (by decide)⟩

/-! ## The game loop: reachable states -/

/-- What one iteration of the loop can do to the state. -/
theorem loopStep_cases (r : Rand) (s t : Game × Nat) (ev : Event)
    (h : loopStep r s ev = some t) :
    s.1.GameOver = false ∧
    (t = s ∨
      (s.1.Won = false ∧ t = moveEnemies r s.2 s.1) ∨
      (s.1.Won = true ∧
        t = initLevel r s.2 { s.1 with Level := s.1.Level + 1, Won := false }) ∨
      (s.1.Won = false ∧ ∃ dx dy : Int, t = (movePlayer s.1 dx dy, s.2))) := by
  have hg : s.1.GameOver = false := by
    cases hgo : s.1.GameOver with
    | false => rfl
    | true => simp [loopStep, hgo] at h
  refine ⟨hg, ?_⟩
  cases ev with
  | tick =>
    rw [loopStep_tick r s hg] at h
    have ht := (Option.some.inj h).symm
    cases hw : s.1.Won with
    | true =>
      left
      rw [ht, handleTick_of_won r s hw]
    | false =>
      right; left
      exact ⟨rfl, by rw [ht, handleTick_of_not_won r s hw]⟩
  | key input =>
    rw [loopStep_key r s input hg] at h
    cases hw : s.1.Won with
    | true =>
      right; right; left
      rw [handleKey_of_won r s input hw] at h
      exact ⟨rfl, (Option.some.inj h).symm⟩
    | false =>
      unfold handleKey at h
      rw [if_neg (by rw [hw]; decide)] at h
      split_ifs at h
      · right; right; right
        exact ⟨rfl, 0, -1, (Option.some.inj h).symm⟩
      · right; right; right
        exact ⟨rfl, 0, 1, (Option.some.inj h).symm⟩
      · right; right; right
        exact ⟨rfl, -1, 0, (Option.some.inj h).symm⟩
      · right; right; right
        exact ⟨rfl, 1, 0, (Option.some.inj h).symm⟩
      · left
        exact (Option.some.inj h).symm

/-- A property kept by every iteration of the loop holds after any run. -/
theorem runLoop_induction (r : Rand) (P : Game × Nat → Prop)
    (hstep : ∀ (s t : Game × Nat) (ev : Event), P s → loopStep r s ev = some t → P t) :
    ∀ (evs : List Event) (s t : Game × Nat), P s → runLoop r evs s = some t → P t := by
  intro evs
  induction evs with
  | nil =>
    intro s t hs h
    rw [runLoop] at h
    exact Option.some.inj h ▸ hs
  | cons ev rest ih =>
    intro s t hs h
    rw [runLoop] at h
    cases hstp : loopStep r s ev with
    | none => simp [hstp] at h
    | some u =>
      rw [hstp] at h
      exact ih u t (hstep s u ev hs hstp) h

/-- A property of the game that holds at the start and is kept by `moveEnemies`,
by the level advance and by `movePlayer`, each in the states where the loop
runs them, holds in every reachable state. -/
theorem reachable_induction (r : Rand) (P : Game → Prop)
    (hstart : P (startGame r).1)
    (henemies : ∀ (g : Game) (k : Nat), P g → g.GameOver = false → g.Won = false →
      P (moveEnemies r k g).1)
    (hlevel : ∀ (g : Game) (k : Nat), P g → g.GameOver = false → g.Won = true →
      P (initLevel r k { g with Level := g.Level + 1, Won := false }).1)
    (hplayer : ∀ (g : Game) (dx dy : Int), P g → g.GameOver = false → g.Won = false →
      P (movePlayer g dx dy)) :
    ∀ (evs : List Event) (t : Game × Nat), runLoop r evs (startGame r) = some t → P t.1 := by
  intro evs t h
  refine runLoop_induction r (fun s => P s.1) ?_ evs (startGame r) t hstart h
  intro s u ev hs hstp
  obtain ⟨hg, hc⟩ := loopStep_cases r s u ev hstp
  rcases hc with rfl | ⟨hw, rfl⟩ | ⟨hw, rfl⟩ | ⟨hw, dx, dy, rfl⟩
  · exact hs
  · exact henemies s.1 s.2 hs hg hw
  · exact hlevel s.1 s.2 hs hg hw
  · exact hplayer s.1 dx dy hs hg hw

/-- C12: in every state reachable from the initial state (`Level = 1` followed by
`initLevel`) by any sequence of ticks and keystrokes, with any draws, `GameOver`
and `Won` are not both true. -/
theorem reachable_not_over_and_won (r : Rand) (evs : List Event) (t : Game × Nat)
    (h : runLoop r evs (startGame r) = some t) :
    ¬ (t.1.GameOver = true ∧ t.1.Won = true) := by
  refine reachable_induction r (fun g => ¬ (g.GameOver = true ∧ g.Won = true))
    ?_ ?_ ?_ ?_ evs t h
  · intro hc
    have hw : (startGame r).1.Won = false := (initLevel_frame r 0 _).2.2.2
    rw [hw] at hc
    exact Bool.false_ne_true hc.2
  · intro g k _ _ hw hc
    rw [(moveEnemies_frame r k g).2.2.2.2.2.2.1, hw] at hc
    exact Bool.false_ne_true hc.2
  · intro g k _ _ _ hc
    rw [(initLevel_frame r k _).2.2.2] at hc
    exact Bool.false_ne_true hc.2
  · intro g dx dy _ hg _ hc
    rw [(movePlayer_frame g dx dy).1, hg] at hc
    exact Bool.false_ne_true hc.1

/-- Witness for C12: a run that collects all seven berries ends won and not over;
a run in which the enemy steps onto the player ends over and not won. -/
theorem reachable_not_over_and_won_witness :
    (∃ t : Game × Nat, runLoop berryRand collectAll (startGame berryRand) = some t ∧
      t.1.Won = true ∧ t.1.GameOver = false ∧
      ¬ (t.1.GameOver = true ∧ t.1.Won = true)) ∧
    (∃ t : Game × Nat, runLoop hunterRand [Event.tick] (startGame hunterRand) = some t ∧
      t.1.Won = false ∧ t.1.GameOver = true ∧
      ¬ (t.1.GameOver = true ∧ t.1.Won = true)) := by
  constructor
  · obtain ⟨t, ht⟩ := Option.isSome_iff_exists.1
      (show (runLoop berryRand collectAll (startGame berryRand)).isSome = true by decide!)
    have hw : (runLoop berryRand collectAll (startGame berryRand)).map (fun u => u.1.Won)
        = some true := by decide!
    have hg : (runLoop berryRand collectAll (startGame berryRand)).map (fun u => u.1.GameOver)
        = some false := by decide!
    rw [ht] at hw hg
    exact ⟨t, ht, Option.some.inj hw, Option.some.inj hg,
      reachable_not_over_and_won berryRand collectAll t ht⟩
  · obtain ⟨t, ht⟩ := Option.isSome_iff_exists.1
      (show (runLoop hunterRand [Event.tick] (startGame hunterRand)).isSome = true by decide!)
    have hw : (runLoop hunterRand [Event.tick] (startGame hunterRand)).map
        (fun u => u.1.Won) = some false := by decide!
    have hg : (runLoop hunterRand [Event.tick] (startGame hunterRand)).map
        (fun u => u.1.GameOver) = some true := by decide!
    rw [ht] at hw hg
    exact ⟨t, ht, Option.some.inj hw, Option.some.inj hg,
      reachable_not_over_and_won hunterRand [Event.tick] t ht⟩

/-! ## Invariants: won exactly when no berry is left -/

/-- The berries `initLevel` draws for a level `>= 1` are not empty. -/
theorem initLevel_berries_ne_nil (r : Rand) (k : Nat) (g : Game) (hL : 1 ≤ g.Level) :
    (initLevel r k g).1.Berries ≠ [] := by
  intro h
  have hlen := congrArg List.length h
  rw [initLevel_eq] at hlen
  simp only [length_drawPositions, List.length_nil] at hlen
  omega

/-- `movePlayer` keeps `Won` true exactly when no berry is left. -/
theorem movePlayer_won_iff (g : Game) (dx dy : Int)
    (hinv : g.Won = true ↔ g.Berries = []) :
    (movePlayer g dx dy).Won = true ↔ (movePlayer g dx dy).Berries = [] := by
  by_cases hb : outOfBounds (g.Player.X + dx) (g.Player.Y + dy) = true
  · rw [movePlayer_blocked g dx dy (Or.inl hb)]
    exact hinv
  · by_cases hw : hitsWall g.Walls (g.Player.X + dx) (g.Player.Y + dy) = true
    · rw [movePlayer_blocked g dx dy (Or.inr hw)]
      exact hinv
    · have hin := (outOfBounds_eq_false_iff _ _).1 (Bool.not_eq_true _ ▸ hb)
      have hwall := (hitsWall_eq_false_iff _ _ _).1 (Bool.not_eq_true _ ▸ hw)
      by_cases hberry : ({ X := g.Player.X + dx, Y := g.Player.Y + dy } : Position) ∈ g.Berries
      · obtain ⟨front, back, h1, -, h3, -, h5⟩ :=
          movePlayer_pickup_some g dx dy hin hwall hberry
        rw [h3, h5]
        by_cases hnil : front ++ back = []
        · rw [if_pos hnil]
          exact ⟨fun _ => hnil, fun _ => rfl⟩
        · rw [if_neg hnil]
          constructor
          · intro hwon
            have := hinv.1 hwon
            rw [h1] at this
            simp at this
          · intro habs
            exact absurd habs hnil
      · obtain ⟨h1, -, h3⟩ := movePlayer_pickup_none g dx dy hin hwall hberry
        rw [h1, h3]
        by_cases hnil : g.Berries = []
        · rw [if_pos hnil]
          exact ⟨fun _ => hnil, fun _ => rfl⟩
        · rw [if_neg hnil]
          exact hinv

/-- C14: in every state reachable from the initial state (`Level = 1` followed by
`initLevel`) by any sequence of ticks and keystrokes, with any draws, `Won` is
true if and only if `Berries` is empty. -/
theorem reachable_won_iff_no_berries (r : Rand) (evs : List Event) (t : Game × Nat)
    (h : runLoop r evs (startGame r) = some t) :
    t.1.Won = true ↔ t.1.Berries = [] := by
  refine (reachable_induction r
    (fun g => (g.Won = true ↔ g.Berries = []) ∧ 1 ≤ g.Level) ?_ ?_ ?_ ?_ evs t h).1
  · have hw : (startGame r).1.Won = false := (initLevel_frame r 0 _).2.2.2
    have hl : (startGame r).1.Level = 1 := (initLevel_frame r 0 _).2.1
    have hb : (startGame r).1.Berries ≠ [] := initLevel_berries_ne_nil r 0 _ (le_refl 1)
    refine ⟨⟨fun hc => ?_, fun hc => absurd hc hb⟩, by rw [hl]⟩
    rw [hw] at hc
    exact absurd hc Bool.false_ne_true
  · intro g k hinv _ _
    obtain ⟨-, hberries, -, -, hlevel, -, hwon, -⟩ := moveEnemies_frame r k g
    rw [hberries, hlevel, hwon]
    exact hinv
  · intro g k hinv _ _
    have hL : (1 : Int) ≤ g.Level + 1 := by
      have := hinv.2
      omega
    have hw : (initLevel r k { g with Level := g.Level + 1, Won := false }).1.Won = false :=
      (initLevel_frame r k _).2.2.2
    have hl : (initLevel r k { g with Level := g.Level + 1, Won := false }).1.Level
        = g.Level + 1 := (initLevel_frame r k _).2.1
    have hb := initLevel_berries_ne_nil r k { g with Level := g.Level + 1, Won := false } hL
    refine ⟨⟨fun hc => ?_, fun hc => absurd hc hb⟩, by rw [hl]; exact hL⟩
    rw [hw] at hc
    exact absurd hc Bool.false_ne_true
  · intro g dx dy hinv _ _
    refine ⟨movePlayer_won_iff g dx dy hinv.1, ?_⟩
    rw [(movePlayer_frame g dx dy).2.2.2.1]
    exact hinv.2

/-- Witness for C14: after six of the seven berries one is left and `Won` is false;
after the seventh none is left and `Won` is true; one keystroke later level 2 has
nine berries and `Won` is false again. -/
theorem reachable_won_iff_no_berries_witness :
    (∃ t : Game × Nat,
      runLoop berryRand (collectAll.take 13) (startGame berryRand) = some t ∧
      t.1.Berries.length = 1 ∧ t.1.Won = false ∧ (t.1.Won = true ↔ t.1.Berries = [])) ∧
    (∃ t : Game × Nat, runLoop berryRand collectAll (startGame berryRand) = some t ∧
      t.1.Berries = [] ∧ t.1.Won = true ∧ (t.1.Won = true ↔ t.1.Berries = [])) ∧
    (∃ t : Game × Nat,
      runLoop berryRand (collectAll ++ [Event.key 'q']) (startGame berryRand) = some t ∧
      t.1.Berries.length = 9 ∧ t.1.Won = false ∧ (t.1.Won = true ↔ t.1.Berries = [])) := by
  refine ⟨?_, ?_, ?_⟩
  · obtain ⟨t, ht⟩ := Option.isSome_iff_exists.1
      (show (runLoop berryRand (collectAll.take 13) (startGame berryRand)).isSome = true by
        decide!)
    have hb : (runLoop berryRand (collectAll.take 13) (startGame berryRand)).map
        (fun u => u.1.Berries.length) = some 1 := by decide!
    have hw : (runLoop berryRand (collectAll.take 13) (startGame berryRand)).map
        (fun u => u.1.Won) = some false := by decide!
    rw [ht] at hb hw
    exact ⟨t, ht, Option.some.inj hb, Option.some.inj hw,
      reachable_won_iff_no_berries berryRand _ t ht⟩
  · obtain ⟨t, ht⟩ := Option.isSome_iff_exists.1
      (show (runLoop berryRand collectAll (startGame berryRand)).isSome = true by decide!)
    have hb : (runLoop berryRand collectAll (startGame berryRand)).map
        (fun u => u.1.Berries) = some [] := by decide!
    have hw : (runLoop berryRand collectAll (startGame berryRand)).map
        (fun u => u.1.Won) = some true := by decide!
    rw [ht] at hb hw
    exact ⟨t, ht, Option.some.inj hb, Option.some.inj hw,
      reachable_won_iff_no_berries berryRand _ t ht⟩
  · obtain ⟨t, ht⟩ := Option.isSome_iff_exists.1
      (show (runLoop berryRand (collectAll ++ [Event.key 'q'])
        (startGame berryRand)).isSome = true by decide!)
    have hb : (runLoop berryRand (collectAll ++ [Event.key 'q']) (startGame berryRand)).map
        (fun u => u.1.Berries.length) = some 9 := by decide!
    have hw : (runLoop berryRand (collectAll ++ [Event.key 'q']) (startGame berryRand)).map
        (fun u => u.1.Won) = some false := by decide!
    rw [ht] at hb hw
    exact ⟨t, ht, Option.some.inj hb, Option.some.inj hw,
      reachable_won_iff_no_berries berryRand _ t ht⟩

/-! ## Invariants: positions and directions -/

theorem interior_iff_strict (p : Position) :
    Interior p ↔ (0 < p.X ∧ p.X < Width - 1 ∧ 0 < p.Y ∧ p.Y < Height - 1) := by
  simp only [Interior, Width, Height]
  omega

/-- Every enemy after `enemyTurns` is an enemy of the list after its own turn. -/
theorem mem_enemyTurns (r : Rand) (player : Position) (walls : List Position)
    (l : List Enemy) :
    ∀ (k : Nat) (e2 : Enemy), e2 ∈ (enemyTurns r player walls k l).1 →
      ∃ e ∈ l, ∃ j : Nat, e2 = (enemyTurn r player walls j e).1 := by
  induction l with
  | nil =>
    intro k e2 h
    simp [enemyTurns] at h
  | cons e rest ih =>
    intro k e2 h
    rw [enemyTurns, List.mem_cons] at h
    rcases h with h | h
    · exact ⟨e, List.mem_cons_self _ _, k, h⟩
    · obtain ⟨e1, hmem, j, hj⟩ := ih _ e2 h
      exact ⟨e1, List.mem_cons_of_mem _ hmem, j, hj⟩

/-- The step of a direction is zero or one cell along one axis. -/
theorem dirVec_cases (d : Int) :
    dirVec d = (0, -1) ∨ dirVec d = (1, 0) ∨ dirVec d = (0, 1) ∨ dirVec d = (-1, 0) ∨
      dirVec d = (0, 0) := by
  unfold dirVec
  split_ifs <;> simp

/-- After its turn an enemy is where it was, or on a valid cell one step away. -/
theorem enemyTurn_pos (r : Rand) (player : Position) (walls : List Position)
    (k : Nat) (e : Enemy) :
    (enemyTurn r player walls k e).1.Pos = e.Pos ∨
    (Interior (enemyTurn r player walls k e).1.Pos ∧
      Adjacent (enemyTurn r player walls k e).1.Pos e.Pos) := by
  by_cases hv : validMove walls
      (e.Pos.X + (dirVec (retarget (r.Float32 k) player e)).1)
      (e.Pos.Y + (dirVec (retarget (r.Float32 k) player e)).2) = true
  · rw [enemyTurn_of_valid r player walls k e hv]
    have hin := ((validMove_eq_true_iff _ _ _).1 hv).1
    rcases dirVec_cases (retarget (r.Float32 k) player e) with h | h | h | h | h
    all_goals rw [h] at hin ⊢
    all_goals simp only [add_zero] at hin ⊢
    · right
      exact ⟨hin, by simp [Adjacent]⟩
    · right
      exact ⟨hin, by simp [Adjacent]⟩
    · right
      exact ⟨hin, by simp [Adjacent]⟩
    · right
      exact ⟨hin, by simp [Adjacent]⟩
    · left
      trivial
  · rw [enemyTurn_of_not_valid r player walls k e (Bool.not_eq_true _ ▸ hv)]
    left
    rfl

/-- The chase step yields 0, 1, 2, 3 or the direction the enemy had. -/
theorem retarget_range (q : ℚ) (player : Position) (e : Enemy)
    (he : 0 ≤ e.Direction ∧ e.Direction < 4) :
    0 ≤ retarget q player e ∧ retarget q player e < 4 := by
  unfold retarget
  split_ifs <;> first | exact he | decide

/-- After its turn an enemy with a direction among 0..3 has one among 0..3. -/
theorem enemyTurn_direction (r : Rand) (hr : r.InRange) (player : Position)
    (walls : List Position) (k : Nat) (e : Enemy)
    (he : 0 ≤ e.Direction ∧ e.Direction < 4) :
    0 ≤ (enemyTurn r player walls k e).1.Direction ∧
      (enemyTurn r player walls k e).1.Direction < 4 := by
  by_cases hv : validMove walls
      (e.Pos.X + (dirVec (retarget (r.Float32 k) player e)).1)
      (e.Pos.Y + (dirVec (retarget (r.Float32 k) player e)).2) = true
  · rw [enemyTurn_of_valid r player walls k e hv]
    exact retarget_range _ player e he
  · rw [enemyTurn_of_not_valid r player walls k e (Bool.not_eq_true _ ▸ hv)]
    exact hr (k + 1) 4 (by decide)

/-- The berries after `movePlayer` are among the berries before. -/
theorem movePlayer_berries_subset (g : Game) (dx dy : Int) :
    ∀ b ∈ (movePlayer g dx dy).Berries, b ∈ g.Berries := by
  by_cases hb : outOfBounds (g.Player.X + dx) (g.Player.Y + dy) = true
  · rw [movePlayer_blocked g dx dy (Or.inl hb)]
    exact fun b h => h
  · by_cases hw : hitsWall g.Walls (g.Player.X + dx) (g.Player.Y + dy) = true
    · rw [movePlayer_blocked g dx dy (Or.inr hw)]
      exact fun b h => h
    · have hin := (outOfBounds_eq_false_iff _ _).1 (Bool.not_eq_true _ ▸ hb)
      have hwall := (hitsWall_eq_false_iff _ _ _).1 (Bool.not_eq_true _ ▸ hw)
      by_cases hberry : ({ X := g.Player.X + dx, Y := g.Player.Y + dy } : Position) ∈ g.Berries
      · obtain ⟨front, back, h1, -, h3, -, -⟩ :=
          movePlayer_pickup_some g dx dy hin hwall hberry
        intro b hbm
        rw [h3, List.mem_append] at hbm
        rw [h1, List.mem_append, List.mem_cons]
        rcases hbm with hbm | hbm
        · exact Or.inl hbm
        · exact Or.inr (Or.inr hbm)
      · rw [(movePlayer_pickup_none g dx dy hin hwall hberry).1]
        exact fun b h => h

/-- The player after `movePlayer` is where it was or on an interior cell. -/
theorem movePlayer_player (g : Game) (dx dy : Int) :
    (movePlayer g dx dy).Player = g.Player ∨ Interior (movePlayer g dx dy).Player := by
  by_cases hb : outOfBounds (g.Player.X + dx) (g.Player.Y + dy) = true
  · rw [movePlayer_blocked g dx dy (Or.inl hb)]
    exact Or.inl rfl
  · by_cases hw : hitsWall g.Walls (g.Player.X + dx) (g.Player.Y + dy) = true
    · rw [movePlayer_blocked g dx dy (Or.inr hw)]
      exact Or.inl rfl
    · have hin := (outOfBounds_eq_false_iff _ _).1 (Bool.not_eq_true _ ▸ hb)
      right
      rw [movePlayer_committed g dx dy (Bool.not_eq_true _ ▸ hb) (Bool.not_eq_true _ ▸ hw)]
      dsimp only
      split <;> split <;> exact hin

theorem initLevel_allInside (r : Rand) (hr : r.InRange) (k : Nat) (g : Game) :
    AllInside (initLevel r k g).1 := by
  have hin : Interior { X := 20, Y := 10 } := by decide
  rw [initLevel_eq]
  refine ⟨hin, ?_, ?_, ?_⟩
  · intro e he
    exact (interior_drawEnemies r hr _ _ e he).1
  · exact interior_drawPositions r hr _ _
  · exact interior_drawPositions r hr _ _

theorem movePlayer_allInside (g : Game) (dx dy : Int) (h : AllInside g) :
    AllInside (movePlayer g dx dy) := by
  obtain ⟨hp, he, hw, hb⟩ := h
  obtain ⟨-, fe, fw, -, -⟩ := movePlayer_frame g dx dy
  refine ⟨?_, ?_, ?_, ?_⟩
  · rcases movePlayer_player g dx dy with h | h
    · rw [h]
      exact hp
    · exact h
  · rw [fe]
    exact he
  · rw [fw]
    exact hw
  · intro b hbm
    exact hb b (movePlayer_berries_subset g dx dy b hbm)

theorem moveEnemies_allInside (r : Rand) (k : Nat) (g : Game) (h : AllInside g) :
    AllInside (moveEnemies r k g).1 := by
  obtain ⟨hp, he, hw, hb⟩ := h
  rw [moveEnemies_eq]
  refine ⟨hp, ?_, hw, hb⟩
  intro e2 hmem
  obtain ⟨e, hin, j, rfl⟩ := mem_enemyTurns r g.Player g.Walls g.Enemies k e2 hmem
  rcases enemyTurn_pos r g.Player g.Walls j e with h | h
  · rw [h]
    exact he e hin
  · exact h.1

theorem initLevel_directionsOk (r : Rand) (hr : r.InRange) (k : Nat) (g : Game) :
    DirectionsOk (initLevel r k g).1 := by
  rw [initLevel_eq]
  intro e he
  exact (interior_drawEnemies r hr _ _ e he).2

theorem moveEnemies_directionsOk (r : Rand) (hr : r.InRange) (k : Nat) (g : Game)
    (h : DirectionsOk g) : DirectionsOk (moveEnemies r k g).1 := by
  rw [moveEnemies_eq]
  intro e2 hmem
  obtain ⟨e, hin, j, rfl⟩ := mem_enemyTurns r g.Player g.Walls g.Enemies k e2 hmem
  exact enemyTurn_direction r hr g.Player g.Walls j e (h e hin)

/-- C13: in every state reachable from the initial state (`Level = 1` followed by
`initLevel`) by any sequence of ticks and keystrokes, with any draws (each
`rand.Intn(n)` in `[0, n)`), the player, every enemy, every wall and every berry
lie strictly inside the interior (`0 < X < Width-1`, `0 < Y < Height-1`):
`initLevel` establishes this and `movePlayer`, `moveEnemies` and the level
advance preserve it. -/
theorem reachable_allInside (r : Rand) (hr : r.InRange) :
    (∀ (evs : List Event) (t : Game × Nat), runLoop r evs (startGame r) = some t →
      (0 < t.1.Player.X ∧ t.1.Player.X < Width - 1 ∧
        0 < t.1.Player.Y ∧ t.1.Player.Y < Height - 1) ∧
      (∀ e ∈ t.1.Enemies,
        0 < e.Pos.X ∧ e.Pos.X < Width - 1 ∧ 0 < e.Pos.Y ∧ e.Pos.Y < Height - 1) ∧
      (∀ w ∈ t.1.Walls, 0 < w.X ∧ w.X < Width - 1 ∧ 0 < w.Y ∧ w.Y < Height - 1) ∧
      (∀ b ∈ t.1.Berries, 0 < b.X ∧ b.X < Width - 1 ∧ 0 < b.Y ∧ b.Y < Height - 1)) ∧
    (∀ (k : Nat) (g : Game), AllInside (initLevel r k g).1) ∧
    (∀ (g : Game) (dx dy : Int), AllInside g → AllInside (movePlayer g dx dy)) ∧
    (∀ (k : Nat) (g : Game), AllInside g → AllInside (moveEnemies r k g).1) ∧
    (∀ (s t : Game × Nat) (input : Char), s.1.Won = true →
      loopStep r s (Event.key input) = some t → AllInside t.1) := by
  refine ⟨?_, initLevel_allInside r hr, movePlayer_allInside,
    moveEnemies_allInside r, ?_⟩
  · intro evs t h
    have hall : AllInside t.1 := by
      refine reachable_induction r AllInside ?_ ?_ ?_ ?_ evs t h
      · exact initLevel_allInside r hr 0 _
      · intro g k hg _ _
        exact moveEnemies_allInside r k g hg
      · intro g k _ _ _
        exact initLevel_allInside r hr k _
      · intro g dx dy hg _ _
        exact movePlayer_allInside g dx dy hg
    obtain ⟨hp, he, hw, hb⟩ := hall
    exact ⟨(interior_iff_strict _).1 hp, fun e hm => (interior_iff_strict _).1 (he e hm),
      fun w hm => (interior_iff_strict _).1 (hw w hm),
      fun b hm => (interior_iff_strict _).1 (hb b hm)⟩
  · intro s t input hw h
    obtain ⟨hg, -⟩ := loopStep_cases r s t _ h
    rw [loopStep_key r s input hg, handleKey_of_won r s input hw] at h
    rw [← Option.some.inj h]
    exact initLevel_allInside r hr s.2 _

/-- Witness for C13: level 1 drawn from `walkRand`, then east, a tick, north, an
ignored key and a tick: the player is on `(21, 9)`, the enemy has gone from
`(15, 16)` to `(15, 14)`, and everything is strictly inside. -/
theorem reachable_allInside_witness :
    walkRand.InRange ∧
    ∃ t : Game × Nat, runLoop walkRand shortWalk (startGame walkRand) = some t ∧
      t.1.Player = { X := 21, Y := 9 } ∧
      t.1.Enemies = [{ Pos := { X := 15, Y := 14 }, Direction := 0 }] ∧
      (0 < t.1.Player.X ∧ t.1.Player.X < Width - 1 ∧
        0 < t.1.Player.Y ∧ t.1.Player.Y < Height - 1) ∧
      (∀ e ∈ t.1.Enemies,
        0 < e.Pos.X ∧ e.Pos.X < Width - 1 ∧ 0 < e.Pos.Y ∧ e.Pos.Y < Height - 1) ∧
      (∀ w ∈ t.1.Walls, 0 < w.X ∧ w.X < Width - 1 ∧ 0 < w.Y ∧ w.Y < Height - 1) ∧
      (∀ b ∈ t.1.Berries, 0 < b.X ∧ b.X < Width - 1 ∧ 0 < b.Y ∧ b.Y < Height - 1) := by
  obtain ⟨t, ht⟩ := Option.isSome_iff_exists.1
    (show (runLoop walkRand shortWalk (startGame walkRand)).isSome = true by decide!)
  have hp : (runLoop walkRand shortWalk (startGame walkRand)).map (fun u => u.1.Player)
      = some { X := 21, Y := 9 } := by decide!
  have he : (runLoop walkRand shortWalk (startGame walkRand)).map (fun u => u.1.Enemies)
      = some [{ Pos := { X := 15, Y := 14 }, Direction := 0 }] := by decide!
  rw [ht] at hp he
  exact ⟨walkRand_inRange, t, ht, Option.some.inj hp, Option.some.inj he,
    (reachable_allInside walkRand walkRand_inRange).1 shortWalk t ht⟩

/-- C20: in every state reachable from the initial state (`Level = 1` followed by
`initLevel`) by any sequence of ticks and keystrokes, with any draws (each
`rand.Intn(n)` in `[0, n)`), every enemy's direction is 0, 1, 2 or 3; and in one
call of `moveEnemies` from such a state each enemy keeps its position or moves
by exactly one cell along exactly one axis, and its direction stays among
0, 1, 2, 3. -/
theorem reachable_directions (r : Rand) (hr : r.InRange) (evs : List Event)
    (t : Game × Nat) (h : runLoop r evs (startGame r) = some t) :
    (∀ e ∈ t.1.Enemies,
      e.Direction = 0 ∨ e.Direction = 1 ∨ e.Direction = 2 ∨ e.Direction = 3) ∧
    (∀ (k i : Nat) (e e2 : Enemy), t.1.Enemies[i]? = some e →
      (moveEnemies r k t.1).1.Enemies[i]? = some e2 →
      (e2.Pos = e.Pos ∨ Adjacent e2.Pos e.Pos) ∧
      (e2.Direction = 0 ∨ e2.Direction = 1 ∨ e2.Direction = 2 ∨ e2.Direction = 3)) := by
  have hdir : DirectionsOk t.1 := by
    refine reachable_induction r DirectionsOk ?_ ?_ ?_ ?_ evs t h
    · exact initLevel_directionsOk r hr 0 _
    · intro g k hg _ _
      exact moveEnemies_directionsOk r hr k g hg
    · intro g k _ _ _
      exact initLevel_directionsOk r hr k _
    · intro g dx dy hg _ _ e he
      rw [(movePlayer_frame g dx dy).2.1] at he
      exact hg e he
  constructor
  · intro e he
    have := hdir e he
    omega
  · intro k i e e2 hget hres
    rw [moveEnemies_getElem r k t.1 i e hget] at hres
    rw [← Option.some.inj hres]
    constructor
    · rcases enemyTurn_pos r t.1.Player t.1.Walls (beforeEnemy r k t.1 i).2 e with hp | hp
      · exact Or.inl hp
      · exact Or.inr hp.2
    · have := enemyTurn_direction r hr t.1.Player t.1.Walls (beforeEnemy r k t.1 i).2 e
        (hdir e (List.getElem?_mem hget))
      omega

/-- Witness for C20: after the short walk from the level drawn from `walkRand` the
enemy heads up (0); one more call of `moveEnemies` takes it one cell up, from
`(15, 14)` to `(15, 13)`. -/
theorem reachable_directions_witness :
    walkRand.InRange ∧
    ∃ t : Game × Nat, runLoop walkRand shortWalk (startGame walkRand) = some t ∧
      t.1.Enemies[0]? = some { Pos := { X := 15, Y := 14 }, Direction := 0 } ∧
      (moveEnemies walkRand t.2 t.1).1.Enemies[0]?
        = some { Pos := { X := 15, Y := 13 }, Direction := 0 } ∧
      (∀ e ∈ t.1.Enemies,
        e.Direction = 0 ∨ e.Direction = 1 ∨ e.Direction = 2 ∨ e.Direction = 3) ∧
      Adjacent { X := 15, Y := 13 } { X := 15, Y := 14 } := by
  obtain ⟨t, ht⟩ := Option.isSome_iff_exists.1
    (show (runLoop walkRand shortWalk (startGame walkRand)).isSome = true by decide!)
  have he : (runLoop walkRand shortWalk (startGame walkRand)).map (fun u => u.1.Enemies[0]?)
      = some (some { Pos := { X := 15, Y := 14 }, Direction := 0 }) := by decide!
  have hm : (runLoop walkRand shortWalk (startGame walkRand)).map
      (fun u => (moveEnemies walkRand u.2 u.1).1.Enemies[0]?)
      = some (some { Pos := { X := 15, Y := 13 }, Direction := 0 }) := by decide!
  rw [ht] at he hm
  have key := reachable_directions walkRand walkRand_inRange shortWalk t ht
  have hstep := (key.2 t.2 0 _ _ (Option.some.inj he) (Option.some.inj hm)).1
  refine ⟨walkRand_inRange, t, ht, Option.some.inj he, Option.some.inj hm, key.1, ?_⟩
  rcases hstep with hs | hs
  · exact absurd hs (by decide)
  · exact hs

/-! ## moveEnemies: each enemy on its own -/

/-- The turn of an enemy is a function of the enemy, the player, the walls and the
two draws of the turn. -/
theorem enemyTurn_congr (r r2 : Rand) (player : Position) (walls : List Position)
    (k k2 : Nat) (e : Enemy)
    (hq : r2.Float32 k2 = r.Float32 k) (hn : r2.Intn (k2 + 1) 4 = r.Intn (k + 1) 4) :
    (enemyTurn r2 player walls k2 e).1 = (enemyTurn r player walls k e).1 := by
  by_cases hv : validMove walls
      (e.Pos.X + (dirVec (retarget (r.Float32 k) player e)).1)
      (e.Pos.Y + (dirVec (retarget (r.Float32 k) player e)).2) = true
  · rw [enemyTurn_of_valid r player walls k e hv,
      enemyTurn_of_valid r2 player walls k2 e (by rw [hq]; exact hv), hq]
  · rw [enemyTurn_of_not_valid r player walls k e (Bool.not_eq_true _ ▸ hv),
      enemyTurn_of_not_valid r2 player walls k2 e (by rw [hq]; exact Bool.not_eq_true _ ▸ hv),
      hn]

/-- C19: `moveEnemies` leaves `Player`, `Berries`, `Walls`, `Score`, `Level`,
`BerriesNeeded` and `Won` unchanged and keeps the number of enemies; and the
enemy it leaves in a slot is determined by the enemy that was there, the
player's position, the walls and the two draws of that enemy's turn (the chase
draw and the draw for a new direction): in any other state with the same player
and walls, at any slot holding the same enemy and with the same two draws, the
result is the same, whatever the other enemies are. -/
theorem moveEnemies_leaves_others (r : Rand) (k : Nat) (g : Game) :
    ((moveEnemies r k g).1.Player = g.Player ∧
      (moveEnemies r k g).1.Berries = g.Berries ∧
      (moveEnemies r k g).1.Walls = g.Walls ∧
      (moveEnemies r k g).1.Score = g.Score ∧
      (moveEnemies r k g).1.Level = g.Level ∧
      (moveEnemies r k g).1.BerriesNeeded = g.BerriesNeeded ∧
      (moveEnemies r k g).1.Won = g.Won ∧
      (moveEnemies r k g).1.Enemies.length = g.Enemies.length) ∧
    (∀ (r2 : Rand) (k2 : Nat) (g2 : Game) (i i2 : Nat) (e : Enemy),
      g.Enemies[i]? = some e → g2.Enemies[i2]? = some e →
      g2.Player = g.Player → g2.Walls = g.Walls →
      r2.Float32 (beforeEnemy r2 k2 g2 i2).2 = r.Float32 (beforeEnemy r k g i).2 →
      r2.Intn ((beforeEnemy r2 k2 g2 i2).2 + 1) 4 = r.Intn ((beforeEnemy r k g i).2 + 1) 4 →
      (moveEnemies r2 k2 g2).1.Enemies[i2]? = (moveEnemies r k g).1.Enemies[i]?) := by
  refine ⟨moveEnemies_frame r k g, ?_⟩
  intro r2 k2 g2 i i2 e h1 h2 hp hw hq hn
  rw [moveEnemies_getElem r k g i e h1, moveEnemies_getElem r2 k2 g2 i2 e h2, hp, hw,
    enemyTurn_congr r r2 g.Player g.Walls _ _ e hq hn]

/-- Witness for C19: the enemy in the corner does the same, third among hunters or
alone; berries, score and the rest are as before. -/
theorem moveEnemies_leaves_others_witness :
    (twoHunters.Enemies[2]? = some { Pos := { X := 1, Y := 1 }, Direction := 3 } ∧
      loneEnemy.Enemies[0]? = some { Pos := { X := 1, Y := 1 }, Direction := 3 } ∧
      loneEnemy.Player = twoHunters.Player ∧ loneEnemy.Walls = twoHunters.Walls) ∧
    (moveEnemies zeroRand 7 loneEnemy).1.Enemies[0]?
      = (moveEnemies zeroRand 0 twoHunters).1.Enemies[2]? ∧
    (moveEnemies zeroRand 0 twoHunters).1.Enemies[2]?
      = some { Pos := { X := 2, Y := 1 }, Direction := 1 } ∧
    (moveEnemies zeroRand 0 twoHunters).1.Score = twoHunters.Score ∧
    (moveEnemies zeroRand 0 twoHunters).1.Berries = twoHunters.Berries ∧
    (moveEnemies zeroRand 0 twoHunters).1.Enemies.length = 3 :=
  ⟨⟨by decide, by decide, by decide, by decide⟩,
    (moveEnemies_leaves_others zeroRand 0 twoHunters).2 zeroRand 7 loneEnemy 2 0
      { Pos := { X := 1, Y := 1 }, Direction := 3 } (by decide) (by decide) (by decide)
      (by decide) rfl rfl,
    by decide!,
    (moveEnemies_leaves_others zeroRand 0 twoHunters).1.2.2.2.1,
    (moveEnemies_leaves_others zeroRand 0 twoHunters).1.2.1,
    (moveEnemies_leaves_others zeroRand 0 twoHunters).1.2.2.2.2.2.2.2⟩

end Gozap
